import Mathlib

/-!
Verification of the core runtime of a GPU command-recording and
resource-management library. The definitions below are a shallow embedding of
the Rust source (`wgpu-native`): backend handle types (buffers, images,
fences, memory blocks, callbacks) are represented by `Nat` tokens, machine
integers by `Nat`, and functions that can panic (failed `assert!`, slice
index out of range) return `Option`.
-/

namespace Wgpu

/-- MAX_BIND_GROUPS from command/bind.rs. -/
def MAX_BIND_GROUPS : Nat := 4

/-- BindGroupPair from command/bind.rs: the layout id and the bind group id
recorded for a slot. The strong reference kept in `Stored` is not modelled;
only the id value is observable. -/
structure BindGroupPair where
  layoutId : Nat
  groupId : Nat
  deriving Repr, DecidableEq

/-- Provision from command/bind.rs. -/
inductive Provision where
  | unchanged : Provision
  | changed (wasCompatible : Bool) : Provision
  deriving Repr, DecidableEq

/-- BindGroupEntry from command/bind.rs: one bind-group slot. -/
structure BindGroupEntry where
  expectedLayoutId : Option Nat := none
  provided : Option BindGroupPair := none
  dynamicOffsets : List Nat := []
  deriving Repr, DecidableEq

/-- The fields of the BindGroup resource (binding_model.rs, a file not in the
sources) that command/bind.rs reads: its layout id. The life-guard reference
count it also clones is lifetime bookkeeping with no observable value here. -/
structure BindGroupModel where
  layoutId : Nat
  deriving Repr, DecidableEq

/-- BindGroupEntry::provide from command/bind.rs. Returns the updated entry
plus the Provision; `none` models the panic of the
`assert_eq!(layout_id, bind_group.layout_id)` in the unchanged branch. -/
def BindGroupEntry.provide (e : BindGroupEntry) (bindGroupId : Nat)
    (bindGroup : BindGroupModel) (offsets : List Nat) :
    Option (BindGroupEntry × Provision) :=
  let wasCompatible :=
    match e.provided with
    | some pair =>
      if pair.groupId = bindGroupId ∧ offsets = e.dynamicOffsets then
        none
      else
        some (e.expectedLayoutId = some pair.layoutId : Bool)
    | none => some true
  match e.provided, wasCompatible with
  | some pair, none =>
    if pair.layoutId = bindGroup.layoutId then
      some (e, Provision.unchanged)
    else
      none
  | _, some wc =>
    some
      ({ e with
          provided := some { layoutId := bindGroup.layoutId, groupId := bindGroupId }
          dynamicOffsets := offsets },
        Provision.changed wc)
  | none, none => none

/-- BindGroupEntry::is_valid from command/bind.rs. -/
def BindGroupEntry.isValid (e : BindGroupEntry) : Bool :=
  match e.expectedLayoutId, e.provided with
  | none, _ => true
  | some _, none => false
  | some layout, some pair => layout = pair.layoutId

/-- BindGroupEntry::actual_value from command/bind.rs. -/
def BindGroupEntry.actualValue (e : BindGroupEntry) : Option Nat :=
  e.expectedLayoutId.bind fun layoutId =>
    e.provided.bind fun pair =>
      if pair.layoutId = layoutId then some pair.groupId else none

/-- The TakeSome iterator adapter from command/bind.rs: yields the values of
the leading `some`s and stops at the first `none`. -/
def takeSome : List (Option α) → List α
  | [] => []
  | none :: _ => []
  | some a :: rest => a :: takeSome rest

/-- Binder from command/bind.rs. In the source `entries` is an array of
length MAX_BIND_GROUPS; here it is a list, with the length stated where it
matters. -/
structure Binder where
  pipelineLayoutId : Option Nat := none
  entries : List BindGroupEntry
  deriving Repr, DecidableEq

/-- Binder::compatible_count from command/bind.rs: position of the first
invalid slot, or the number of slots when all are valid. -/
def Binder.compatibleCount (b : Binder) : Nat :=
  b.entries.findIdx fun e => ! e.isValid

/-- Binder::invalid_mask from command/bind.rs. -/
def Binder.invalidMask (b : Binder) : Nat :=
  b.entries.enum.foldl
    (fun mask p => if p.2.isValid then mask else mask ||| (1 <<< p.1)) 0

/-- Binder::provide_entry from command/bind.rs. The result is `none` on a
panic (slot index out of range, or the assert inside provide); otherwise it
carries the updated binder and, when the group is to be actually bound, the
pipeline layout id, the follow-up group ids and the follow-up dynamic
offsets. -/
def Binder.provideEntry (b : Binder) (index : Nat) (bindGroupId : Nat)
    (bindGroup : BindGroupModel) (offsets : List Nat) :
    Option (Binder × Option (Nat × List Nat × List Nat)) :=
  match b.entries.get? index with
  | none => none
  | some e =>
    match e.provide bindGroupId bindGroup offsets with
    | none => none
    | some (_, Provision.unchanged) => some (b, none)
    | some (e1, Provision.changed wasCompatible) =>
      let b1 : Binder := { b with entries := b.entries.set index e1 }
      let compatibleCount := b1.compatibleCount
      if index < compatibleCount then
        match b1.pipelineLayoutId with
        | none => some (b1, none)
        | some pl =>
          let endIdx :=
            min compatibleCount
              (if wasCompatible then index + 1 else MAX_BIND_GROUPS)
          let slots := (b1.entries.drop (index + 1)).take (endIdx - (index + 1))
          some (b1, some (pl,
            takeSome (slots.map BindGroupEntry.actualValue),
            slots.flatMap BindGroupEntry.dynamicOffsets))
      else
        some (b1, none)

/-- OptionalState from command/render.rs. -/
inductive OptionalState where
  | unused
  | required
  | set
  deriving Repr, DecidableEq

/-- DrawError from command/render.rs. -/
inductive DrawError where
  | missingBlendColor
  | missingStencilReference
  | incompatibleBindGroup (index : Nat)
  deriving Repr, DecidableEq

/-- Helper for `u8::trailing_zeros`: counts trailing zero bits with explicit
fuel (8 bits for a u8, so the count of 0 is 8). -/
def trailingZerosAux : Nat → Nat → Nat
  | 0, _ => 0
  | fuel + 1, n => if n % 2 = 1 then 0 else trailingZerosAux fuel (n / 2) + 1

/-- u8::trailing_zeros as used on the bind-group mask in
RenderPass::is_ready. -/
def trailingZeros8 (n : Nat) : Nat := trailingZerosAux 8 n

/-- The fields of RenderPass (command/render.rs) that `is_ready` consults:
the binder and the two optional-state flags. -/
structure PassState where
  binder : Binder
  blendColorStatus : OptionalState
  stencilReferenceStatus : OptionalState

/-- RenderPass::is_ready from command/render.rs. -/
def PassState.isReady (p : PassState) : Except DrawError Unit :=
  let bindMask := p.binder.invalidMask
  if bindMask ≠ 0 then
    Except.error (DrawError.incompatibleBindGroup (trailingZeros8 bindMask))
  else if p.blendColorStatus = OptionalState.required then
    Except.error DrawError.missingBlendColor
  else if p.stencilReferenceStatus = OptionalState.required then
    Except.error DrawError.missingStencilReference
  else
    Except.ok ()

/-- BIND_BUFFER_ALIGNMENT from device.rs. -/
def BIND_BUFFER_ALIGNMENT : Nat := 256

/-- The validation performed by render_pass_set_bind_group
(command/render.rs): the unconditional
`assert_eq!(bind_group.dynamic_count, offsets.len())`, followed by the
per-offset alignment asserts that are compiled only under
`cfg!(debug_assertions)`. Returns true when no assert fires. -/
def renderPassSetBindGroupValid (debugAssertions : Bool) (dynamicCount : Nat)
    (offsets : List Nat) : Bool :=
  (dynamicCount == offsets.length) &&
    (!debugAssertions || offsets.all fun off => off % BIND_BUFFER_ALIGNMENT == 0)

/-- The validation performed by compute_pass_set_bind_group
(command/compute.rs); its source text is identical to the render-pass one. -/
def computePassSetBindGroupValid (debugAssertions : Bool) (dynamicCount : Nat)
    (offsets : List Nat) : Bool :=
  (dynamicCount == offsets.length) &&
    (!debugAssertions || offsets.all fun off => off % BIND_BUFFER_ALIGNMENT == 0)

/-- CompareFunction from resource.rs. -/
inductive CompareFunction where
  | never
  | less
  | equal
  | lessEqual
  | greater
  | notEqual
  | greaterEqual
  | always
  deriving Repr, DecidableEq

/-- CompareFunction::is_trivial from resource.rs. -/
def CompareFunction.isTrivial : CompareFunction → Bool
  | CompareFunction.never => true
  | CompareFunction.always => true
  | _ => false

/-- The comparison functions of the backend API (hal::pso::Comparison). -/
inductive HalComparison where
  | never
  | less
  | equal
  | lessEqual
  | greater
  | notEqual
  | greaterEqual
  | always
  deriving Repr, DecidableEq

/-- Modelled from the spec: conv::map_compare_function lives in conv.rs,
which is not among the sources; per the spec each compare function maps to
the corresponding backend comparison. -/
def mapCompareFunction : CompareFunction → HalComparison
  | CompareFunction.never => HalComparison.never
  | CompareFunction.less => HalComparison.less
  | CompareFunction.equal => HalComparison.equal
  | CompareFunction.lessEqual => HalComparison.lessEqual
  | CompareFunction.greater => HalComparison.greater
  | CompareFunction.notEqual => HalComparison.notEqual
  | CompareFunction.greaterEqual => HalComparison.greaterEqual
  | CompareFunction.always => HalComparison.always

/-- The `comparison` field computed by device_create_sampler (device.rs) for
the backend SamplerInfo: disabled exactly when the descriptor's compare
function equals Always. -/
def samplerComparison (compareFunction : CompareFunction) : Option HalComparison :=
  if compareFunction = CompareFunction.always then
    none
  else
    some (mapCompareFunction compareFunction)

/-- BufferMapAsyncStatus from resource.rs. -/
inductive BufferMapAsyncStatus where
  | success
  | error
  | unknown
  | contextLost
  deriving Repr, DecidableEq

/-- BufferMapOperation from resource.rs: a read or write request carrying the
byte range, the C callback and its userdata (both opaque tokens here). -/
inductive BufferMapOperation where
  | read (rangeStart rangeEnd : Nat) (callback : Nat) (userdata : Nat)
  | write (rangeStart rangeEnd : Nat) (callback : Nat) (userdata : Nat)
  deriving Repr, DecidableEq

/-- One invocation of a user map callback: which callback ran, with what
status and whether the data pointer was null. -/
structure MapCallbackCall where
  callback : Nat
  userdata : Nat
  status : BufferMapAsyncStatus
  pointerIsNull : Bool
  deriving Repr, DecidableEq

/-- BufferMapOperation::call_error from resource.rs: invokes the stored
callback with the Error status and a null pointer. -/
def BufferMapOperation.callError : BufferMapOperation → MapCallbackCall
  | BufferMapOperation.read _ _ callback userdata =>
    { callback, userdata, status := BufferMapAsyncStatus.error, pointerIsNull := true }
  | BufferMapOperation.write _ _ callback userdata =>
    { callback, userdata, status := BufferMapAsyncStatus.error, pointerIsNull := true }

/-- Buffer usage bits from resource.rs (the two bits host mapping uses). -/
def BufferUsage.MAP_READ : Nat := 1

/-- MAP_WRITE bit from resource.rs. -/
def BufferUsage.MAP_WRITE : Nat := 2

/-- The fields of resource::Buffer that the lifecycle engine reads: the raw
backend buffer, its memory block, the pending map operation and the
life-guard's last-submission index. -/
structure BufferModel where
  raw : Nat
  memory : Nat
  pendingMapOperation : Option BufferMapOperation := none
  submissionIndex : Nat := 0
  deriving Repr, DecidableEq

/-- TexturePlacement from resource.rs. -/
inductive TexturePlacement where
  | swapChain
  | memory (block : Nat)
  deriving Repr, DecidableEq

/-- The fields of resource::Texture that the lifecycle engine reads. -/
structure TextureModel where
  raw : Nat
  placement : TexturePlacement
  submissionIndex : Nat := 0
  deriving Repr, DecidableEq

/-- The fields of resource::TextureView that the lifecycle engine reads. -/
structure TextureViewModel where
  raw : Nat
  submissionIndex : Nat := 0
  deriving Repr, DecidableEq

/-- The fields of the BindGroup resource that the lifecycle engine reads:
its raw descriptor set and last-submission index. -/
structure HubBindGroup where
  raw : Nat
  submissionIndex : Nat := 0
  deriving Repr, DecidableEq

/-- ResourceId from device.rs. -/
inductive ResourceId where
  | buffer (id : Nat)
  | texture (id : Nat)
  | textureView (id : Nat)
  | bindGroup (id : Nat)
  deriving Repr, DecidableEq

/-- NativeResource from device.rs. -/
inductive NativeResource where
  | buffer (raw memory : Nat)
  | image (raw memory : Nat)
  | imageView (raw : Nat)
  | framebuffer (raw : Nat)
  | descriptorSet (raw : Nat)
  deriving Repr, DecidableEq

/-- ActiveSubmission from device.rs. -/
structure ActiveSubmission where
  index : Nat
  fence : Nat
  resources : List (Option ResourceId × NativeResource)
  mapped : List Nat
  deriving Repr, DecidableEq

/-- PendingResources from device.rs. The `mapped` entries keep only the
buffer id (the strong reference in `Stored` is lifetime bookkeeping); each
`referenced` entry carries the value its strong count loads to during
triage. -/
structure PendingResources where
  mapped : List Nat := []
  referenced : List (ResourceId × Nat) := []
  active : List ActiveSubmission := []
  free : List NativeResource := []
  readyToMap : List Nat := []
  deriving Repr, DecidableEq

/-- The typed stores that triage_referenced locks (hub.rs is not among the
sources; a store is an id-keyed map, here an association list). -/
structure Hub where
  buffers : List (Nat × BufferModel) := []
  textures : List (Nat × TextureModel) := []
  views : List (Nat × TextureViewModel) := []
  bindGroups : List (Nat × HubBindGroup) := []
  deriving Repr, DecidableEq

/-- Modelled from the spec: the device TrackerSet (track.rs is not among the
sources). The buffer tracker maps each buffer id to its current usage bits;
the texture, view and bind-group trackers are kept here as the sets of
tracked ids, which is all that `remove` and `change_replace` observe. -/
structure TrackerSet where
  buffers : List (Nat × Nat) := []
  textures : List Nat := []
  views : List Nat := []
  bindGroups : List Nat := []
  deriving Repr, DecidableEq

/-- Modelled from the spec: BufferTracker::change_replace used by
buffer_map_async records the required usage as the buffer's tracked state. -/
def TrackerSet.changeReplaceBuffer (t : TrackerSet) (id : Nat) (usage : Nat) :
    TrackerSet :=
  { t with buffers := (id, usage) :: t.buffers.filter fun kv => kv.1 != id }

/-- The state triage_referenced runs against: the stores, the device
tracker set and the pending-resources lists. -/
structure TriageState where
  hub : Hub
  trackers : TrackerSet
  pending : PendingResources
  deriving Repr, DecidableEq

/-- Vec::swap_remove: replace element `i` with the last element and pop. -/
def swapRemove (l : List α) (i : Nat) : List α :=
  match l.getLast? with
  | none => l
  | some last => (l.set i last).dropLast

/-- The attachment step at the end of triage_referenced: push the native
resource onto the first active submission whose index equals the resource's
last-submission index, or onto `free` when none matches. -/
def attachResource : List ActiveSubmission → List NativeResource → Nat →
    Option ResourceId → NativeResource →
    List ActiveSubmission × List NativeResource
  | [], free, _, _, res => ([], free ++ [res])
  | a :: rest, free, submitIndex, rid, res =>
    if a.index = submitIndex then
      ({ a with resources := a.resources ++ [(rid, res)] } :: rest, free)
    else
      let tail := attachResource rest free submitIndex rid res
      (a :: tail.1, tail.2)

/-- The native resources attached to active submissions under a given
resource id: what triage_referenced has routed for that resource. The code
keeps the id next to each routed native exactly to make this set
observable. -/
def taggedNatives (rid : ResourceId) (active : List ActiveSubmission) :
    List NativeResource :=
  active.flatMap fun a =>
    a.resources.filterMap fun x => if x.1 = some rid then some x.2 else none

/-- The per-entry body of triage_referenced (device.rs), run after the entry
has been swap-removed from `referenced` with a strong count of exactly 3:
a buffer with a pending map operation is skipped; otherwise the resource is
removed from the device tracker and its store, converted to a
NativeResource, and attached to the active submission matching its
last-submission index (or pushed to `free`). A missing store entry is an
index panic (`none`). Swap-chain placed textures are removed but produce no
native resource. -/
def triageEntry (st : TriageState) (rid : ResourceId) : Option TriageState :=
  match rid with
  | ResourceId.buffer id =>
    match st.hub.buffers.lookup id with
    | none => none
    | some buf =>
      if buf.pendingMapOperation.isSome then
        some st
      else
        let trackers :=
          { st.trackers with buffers := st.trackers.buffers.filter fun kv => kv.1 != id }
        let hub := { st.hub with buffers := st.hub.buffers.filter fun kv => kv.1 != id }
        let res := NativeResource.buffer buf.raw buf.memory
        let ar :=
          attachResource st.pending.active st.pending.free buf.submissionIndex
            (some rid) res
        some { hub, trackers,
               pending := { st.pending with active := ar.1, free := ar.2 } }
  | ResourceId.texture id =>
    match st.hub.textures.lookup id with
    | none => none
    | some tex =>
      let trackers :=
        { st.trackers with textures := st.trackers.textures.filter fun x => x != id }
      let hub := { st.hub with textures := st.hub.textures.filter fun kv => kv.1 != id }
      match tex.placement with
      | TexturePlacement.swapChain =>
        some { st with hub, trackers }
      | TexturePlacement.memory block =>
        let res := NativeResource.image tex.raw block
        let ar :=
          attachResource st.pending.active st.pending.free tex.submissionIndex
            (some rid) res
        some { hub, trackers,
               pending := { st.pending with active := ar.1, free := ar.2 } }
  | ResourceId.textureView id =>
    match st.hub.views.lookup id with
    | none => none
    | some view =>
      let trackers :=
        { st.trackers with views := st.trackers.views.filter fun x => x != id }
      let hub := { st.hub with views := st.hub.views.filter fun kv => kv.1 != id }
      let res := NativeResource.imageView view.raw
      let ar :=
        attachResource st.pending.active st.pending.free view.submissionIndex
          (some rid) res
      some { hub, trackers,
             pending := { st.pending with active := ar.1, free := ar.2 } }
  | ResourceId.bindGroup id =>
    match st.hub.bindGroups.lookup id with
    | none => none
    | some bg =>
      let trackers :=
        { st.trackers with bindGroups := st.trackers.bindGroups.filter fun x => x != id }
      let hub := { st.hub with bindGroups := st.hub.bindGroups.filter fun kv => kv.1 != id }
      let res := NativeResource.descriptorSet bg.raw
      let ar :=
        attachResource st.pending.active st.pending.free bg.submissionIndex
          (some rid) res
      some { hub, trackers,
             pending := { st.pending with active := ar.1, free := ar.2 } }

/-- MIN_REFS from triage_referenced: storage entry + device tracker +
pending list + one external user. -/
def MIN_REFS : Nat := 4

/-- The reversed index loop of triage_referenced: entry `i` is examined
after all entries above it. An entry whose count loads below 3 fails the
`assert_eq!(num_refs, 3)` (`none`). -/
def triageLoop (st : TriageState) : Nat → Option TriageState
  | 0 => some st
  | i + 1 =>
    match st.pending.referenced.get? i with
    | none => none
    | some (rid, numRefs) =>
      if numRefs ≤ 3 then
        let st1 :=
          { st with pending :=
              { st.pending with referenced := swapRemove st.pending.referenced i } }
        if numRefs = 3 then
          match triageEntry st1 rid with
          | none => none
          | some st2 => triageLoop st2 i
        else
          none
      else
        triageLoop st i

/-- PendingResources::triage_referenced from device.rs. -/
def triageReferenced (st : TriageState) : Option TriageState :=
  if st.pending.referenced.all (fun r => MIN_REFS ≤ r.2) then
    some st
  else
    triageLoop st st.pending.referenced.length

/-- PendingResources::cleanup from device.rs. The fence-status probe is the
function `status`; a blocking force-wait is represented by `status` already
reflecting the state after the wait. Returns the last retired submission
index, the new state, and the list of native resources handed to the
backend destructors (the drain of `free`). When no leading submission is
signaled the function returns 0 early, before the `free` drain. -/
def cleanup (status : Nat → Bool) (p : PendingResources) :
    Nat × PendingResources × List NativeResource :=
  let doneCount := p.active.findIdx fun a => ! status a.fence
  if doneCount = 0 then
    (0, p, [])
  else
    let lastDone := ((p.active.get? (doneCount - 1)).map ActiveSubmission.index).getD 0
    let drained := p.active.take doneCount
    let destroyed := p.free ++ drained.flatMap fun a => a.resources.map Prod.snd
    (lastDone,
      { p with
          active := p.active.drop doneCount
          free := []
          readyToMap := p.readyToMap ++ drained.flatMap ActiveSubmission.mapped },
      destroyed)

/-- The state buffer_map_async runs against. -/
structure DeviceState where
  buffers : List (Nat × BufferModel)
  trackers : TrackerSet
  pending : PendingResources
  deriving Repr, DecidableEq

/-- The store `buffer.pending_map_operation = Some(op)` performed through
the buffer storage: rewrite the entry keyed by the buffer id. -/
def storePendingMap : List (Nat × BufferModel) → Nat → BufferMapOperation →
    List (Nat × BufferModel)
  | [], _, _ => []
  | (k, v) :: t, id, op =>
    if k = id then (k, { v with pendingMapOperation := some op }) :: t
    else (k, v) :: storePendingMap t id op

/-- buffer_map_async from device.rs. A missing buffer id is an index panic
(`none`); otherwise returns the new state and, when a map was already
pending, the immediate error callback invocation. -/
def bufferMapAsync (st : DeviceState) (bufferId : Nat) (usage : Nat)
    (operation : BufferMapOperation) :
    Option (DeviceState × Option MapCallbackCall) :=
  match st.buffers.lookup bufferId with
  | none => none
  | some buf =>
    if buf.pendingMapOperation.isSome then
      some (st, some operation.callError)
    else
      some
        ({ buffers := storePendingMap st.buffers bufferId operation
           trackers := st.trackers.changeReplaceBuffer bufferId usage
           pending := { st.pending with mapped := st.pending.mapped ++ [bufferId] } },
          none)

/-- Modelled from the spec: LifeGuard lives in the crate root (not among the
sources); a fresh life guard's atomic last-submission index is 0, the value
meaning never used. -/
def lifeGuardNewSubmissionIndex : Nat := 0

/-- Device::new from device.rs: one fetch_add so the per-device submission
counter does not start at zero. -/
def deviceNewSubmissionCounter : Nat := lifeGuardNewSubmissionIndex + 1

/-- The index acquisition at the top of queue_submit (device.rs):
`submit_index = 1 + fetch_add(1)`. Returns the assigned index and the new
counter value. -/
def queueSubmitAcquire (counter : Nat) : Nat × Nat :=
  (1 + counter, counter + 1)

/-- The device submission counter after k submissions. -/
def counterAfterSubmits : Nat → Nat
  | 0 => deviceNewSubmissionCounter
  | k + 1 => (queueSubmitAcquire (counterAfterSubmits k)).2

/-- The submission index assigned by the (k+1)-th queue_submit. -/
def submitIndexAt (k : Nat) : Nat :=
  (queueSubmitAcquire (counterAfterSubmits k)).1

/-- The store queue_submit performs on every used resource's last-submission
index: it overwrites the old value with the new submission index. -/
def storeLastSubmission (_old submitIndex : Nat) : Nat := submitIndex

instance : Inhabited BindGroupEntry := ⟨{}⟩

/-- A pending-resources state with a non-empty free list and no active
submission. -/
def pendingFreeOnly : PendingResources :=
  { free := [NativeResource.imageView 7] }

/-- A pending-resources state with one signaled active submission owning a
framebuffer and a mapped buffer. -/
def pendingOneActive : PendingResources :=
  { active := [{ index := 3, fence := 5,
                 resources := [(none, NativeResource.framebuffer 9)],
                 mapped := [11] }] }

/-- A pending-resources state with two active submissions in FIFO order. -/
def pendingTwoActive : PendingResources :=
  { active :=
      [{ index := 1, fence := 10, resources := [], mapped := [] },
       { index := 2, fence := 20, resources := [], mapped := [] }] }

/-- A buffer with a pending map operation. -/
def bufPendingMap : BufferModel :=
  { raw := 50, memory := 60,
    pendingMapOperation := some (BufferMapOperation.read 0 4 70 80),
    submissionIndex := 1 }

/-- A triage state whose referenced list holds one user-destroyed buffer at
strong count 3 that still has a pending map operation. -/
def stBufferPendingMap : TriageState :=
  { hub := { buffers := [(5, bufPendingMap)] }
    trackers := { buffers := [(5, BufferUsage.MAP_READ)] }
    pending := { referenced := [(ResourceId.buffer 5, 3)] } }

/-- stBufferPendingMap after triage: only the referenced entry is gone. -/
def stBufferPendingMapAfter : TriageState :=
  { stBufferPendingMap with
      pending := { stBufferPendingMap.pending with referenced := [] } }

/-- A pass whose slot 0 was provided a group with layout 1 while the
pipeline expects layout 2 there. -/
def passMismatch : PassState :=
  { binder :=
      { pipelineLayoutId := some 1
        entries :=
          [{ expectedLayoutId := some 2
             provided := some { layoutId := 1, groupId := 8 }
             dynamicOffsets := [] },
           {}, {}, {}] }
    blendColorStatus := OptionalState.unused
    stencilReferenceStatus := OptionalState.unused }

/-- A triage state where every referenced entry still has external users. -/
def stAllReferencedHigh : TriageState :=
  { hub := {}, trackers := {}
    pending := { referenced :=
      [(ResourceId.texture 9, 5), (ResourceId.bindGroup 2, 4)] } }

/-- A binder with compatible groups bound at slots 0 and 1 under pipeline
layout 10. -/
def binderTwoBound : Binder :=
  { pipelineLayoutId := some 10
    entries :=
      [{ expectedLayoutId := some 1
         provided := some { layoutId := 1, groupId := 100 }
         dynamicOffsets := [] },
       { expectedLayoutId := some 2
         provided := some { layoutId := 2, groupId := 101 }
         dynamicOffsets := [] },
       {}, {}] }

/-- binderTwoBound after slot 0 is re-provided with group 102 of the same
layout 1. -/
def binderTwoBoundAfter : Binder :=
  { pipelineLayoutId := some 10
    entries :=
      [{ expectedLayoutId := some 1
         provided := some { layoutId := 1, groupId := 102 }
         dynamicOffsets := [] },
       { expectedLayoutId := some 2
         provided := some { layoutId := 2, groupId := 101 }
         dynamicOffsets := [] },
       {}, {}] }

/-- A buffer with no pending map operation. -/
def bufFresh : BufferModel := { raw := 1, memory := 2 }

/-- A device state holding one fresh buffer under id 4. -/
def devStFresh : DeviceState :=
  { buffers := [(4, bufFresh)], trackers := {}, pending := {} }

/-- A write-map request. -/
def opWrite : BufferMapOperation := BufferMapOperation.write 0 8 90 91

/-- A buffer ready for teardown: no pending map, last touched by
submission 3. -/
def bufTear : BufferModel :=
  { raw := 50, memory := 60, pendingMapOperation := none,
    submissionIndex := 3 }

/-- A memory-placed texture that still has an external user. -/
def texKeep : TextureModel :=
  { raw := 90, placement := TexturePlacement.memory 91,
    submissionIndex := 0 }

/-- A mixed triage state: a count-4 texture entry next to a count-3 buffer
entry, with one active submission matching the buffer's last-submission
index. -/
def stMixed : TriageState :=
  { hub := { buffers := [(5, bufTear)], textures := [(9, texKeep)] }
    trackers := { buffers := [(5, 7)], textures := [9] }
    pending :=
      { referenced := [(ResourceId.texture 9, 4), (ResourceId.buffer 5, 3)]
        active := [{ index := 3
                     fence := 0
                     resources := []
                     mapped := [] }] } }

/-- stMixed after triage: the buffer is torn down and attached to the
matching submission, the count-4 texture entry survives. -/
def stMixedAfter : TriageState :=
  { hub := { buffers := [], textures := [(9, texKeep)] }
    trackers := { buffers := [], textures := [9] }
    pending :=
      { referenced := [(ResourceId.texture 9, 4)]
        active := [{ index := 3
                     fence := 0
                     resources := [(some (ResourceId.buffer 5),
                       NativeResource.buffer 50 60)]
                     mapped := [] }] } }

/-- A buffer at count 3 that still has a pending map operation, next to a
teardown candidate. -/
def bufPend10 : BufferModel :=
  { raw := 50, memory := 60,
    pendingMapOperation := some (BufferMapOperation.read 0 4 1 2),
    submissionIndex := 3 }

/-- A memory-placed texture ready for teardown, last touched by
submission 7. -/
def texGone10 : TextureModel :=
  { raw := 90, placement := TexturePlacement.memory 91,
    submissionIndex := 7 }

/-- A mixed triage state: a count-3 texture entry next to a count-3
pending-map buffer entry, with one active submission matching the
texture's last-submission index. -/
def stMixed10 : TriageState :=
  { hub := { buffers := [(5, bufPend10)], textures := [(9, texGone10)] }
    trackers := { buffers := [(5, 1)], textures := [9] }
    pending :=
      { referenced := [(ResourceId.texture 9, 3), (ResourceId.buffer 5, 3)]
        active := [{ index := 7
                     fence := 0
                     resources := []
                     mapped := [] }] } }

/-- stMixed10 after triage: the texture is torn down and attached, the
pending-map buffer merely has its entry removed. -/
def stMixed10After : TriageState :=
  { hub := { buffers := [(5, bufPend10)], textures := [] }
    trackers := { buffers := [(5, 1)], textures := [] }
    pending :=
      { referenced := []
        active := [{ index := 7
                     fence := 0
                     resources := [(some (ResourceId.texture 9),
                       NativeResource.image 90 91)]
                     mapped := [] }] } }

/-! Theorems. Each claim's theorem carries its claim id in the doc string. -/

/-- Dropping i elements exposes the element at position i. -/
theorem drop_eq_cons_of_get? {α} {l : List α} {i : Nat} {a : α}
    (h : l.get? i = some a) : l.drop i = a :: l.drop (i + 1) := by
  have hlt : i < l.length := List.get?_eq_some.1 h |>.1
  have := List.drop_eq_getElem_cons hlt
  rw [this]
  have : l[i] = a := by
    have hg := List.get?_eq_get hlt
    rw [hg] at h
    exact Option.some_inj.1 h.symm |>.symm
  rw [this]

/-- The last element of a list is a member. -/
theorem mem_of_getLast? {α} {l : List α} {a : α} (h : l.getLast? = some a) :
    a ∈ l := by
  cases l with
  | nil => simp at h
  | cons x t =>
    rw [List.getLast?_eq_getLast (x :: t) (by simp)] at h
    rw [← Option.some_inj.1 h]
    exact List.getLast_mem (by simp)

/-- A successful association-list lookup comes from a member pair. -/
theorem mem_of_lookup {β} {l : List (Nat × β)} {k : Nat} {v : β}
    (h : l.lookup k = some v) : (k, v) ∈ l := by
  induction l with
  | nil => simp [List.lookup] at h
  | cons kv t ih =>
    rw [List.lookup] at h
    by_cases hk : k == kv.1
    · rw [hk] at h
      have : kv = (k, v) := by
        obtain ⟨k1, v1⟩ := kv
        have hk1 : k = k1 := by simpa using hk
        have hv : v1 = v := by simpa using h
        simp [hk1, hv]
      rw [this]
      exact List.mem_cons_self _ _
    · rw [Bool.not_eq_true] at hk
      rw [hk] at h
      exact List.mem_cons_of_mem _ (ih h)

/-- Filtering out another key leaves a lookup unchanged. -/
theorem lookup_filter_key_ne {β} (l : List (Nat × β)) {k b : Nat}
    (hk : k ≠ b) :
    (l.filter fun kv => kv.1 != b).lookup k = l.lookup k := by
  induction l with
  | nil => rfl
  | cons kv t ih =>
    obtain ⟨k1, v1⟩ := kv
    by_cases h1 : k1 = b
    · subst h1
      have hbe : (k == k1) = false := beq_eq_false_iff_ne.mpr hk
      simp [List.lookup, List.filter, hbe, ih]
    · have hne : (k1 != b) = true := bne_iff_ne.mpr h1
      simp [List.lookup, List.filter, hne, ih]

/-- Filtering out a key makes its lookup fail. -/
theorem lookup_filter_key_self {β} (l : List (Nat × β)) (b : Nat) :
    (l.filter fun kv => kv.1 != b).lookup b = none := by
  induction l with
  | nil => rfl
  | cons kv t ih =>
    obtain ⟨k1, v1⟩ := kv
    by_cases h1 : k1 = b
    · subst h1
      simp [List.filter, ih]
    · have hne : (k1 != b) = true := bne_iff_ne.mpr h1
      have hbe : (b == k1) = false := beq_eq_false_iff_ne.mpr fun hh => h1 hh.symm
      simp [List.lookup, List.filter, hne, hbe, ih]

/-- A failing lookup keeps failing on any sublist obtained by filtering. -/
theorem lookup_none_filter {β} {l : List (Nat × β)} {k : Nat}
    (p : Nat × β → Bool) (h : l.lookup k = none) :
    (l.filter p).lookup k = none := by
  induction l with
  | nil => rfl
  | cons kv t ih =>
    rw [List.lookup] at h
    by_cases hk : k == kv.1
    · rw [hk] at h
      simp at h
    · rw [Bool.not_eq_true] at hk
      rw [hk] at h
      by_cases hp : p kv
      · simp [List.filter, hp, List.lookup, hk, ih h]
      · simp [List.filter, hp, ih h]

/-- Filtering a list of ids by another id keeps membership of this one. -/
theorem mem_filter_id_ne {l : List Nat} {k t : Nat} (hk : k ≠ t) :
    k ∈ l.filter (fun x => x != t) ↔ k ∈ l := by
  simp [List.mem_filter, bne_iff_ne, hk]

/-- Filtering an id out of a list of ids removes it. -/
theorem not_mem_filter_id_self (l : List Nat) (t : Nat) :
    t ∉ l.filter (fun x => x != t) := by
  simp [List.mem_filter]

/-- Vec::swap_remove on the empty list is the empty list. -/
theorem swapRemove_nil {α} (i : Nat) : swapRemove ([] : List α) i = [] := rfl

/-- Vec::swap_remove below the head commutes with cons. -/
theorem swapRemove_cons_succ {α} (a : α) (t : List α) (i : Nat)
    (ht : t ≠ []) : swapRemove (a :: t) (i + 1) = a :: swapRemove t i := by
  cases t with
  | nil => exact absurd rfl ht
  | cons b t2 =>
    rw [swapRemove, swapRemove, List.getLast?_cons_cons]
    cases hgl : (b :: t2).getLast? with
    | none => simp at hgl
    | some z =>
      show ((a :: b :: t2).set (i + 1) z).dropLast =
        a :: ((b :: t2).set i z).dropLast
      cases i with
      | zero => simp [List.set]
      | succ j => simp [List.set]

/-- Every element of a swap_remove result was in the list. -/
theorem swapRemove_subset {α} {l : List α} {i : Nat} {a : α}
    (h : a ∈ swapRemove l i) : a ∈ l := by
  rw [swapRemove] at h
  cases hgl : l.getLast? with
  | none => rw [hgl] at h; exact h
  | some z =>
    rw [hgl] at h
    have h2 : a ∈ l.set i z := List.dropLast_subset _ h
    rcases List.mem_or_eq_of_mem_set h2 with h3 | h3
    · exact h3
    · rw [h3]; exact mem_of_getLast? hgl

/-- Vec::swap_remove at a valid position keeps the prefix before it. -/
theorem swapRemove_take {α} : ∀ (l : List α) (i : Nat), i < l.length →
    (swapRemove l i).take i = l.take i := by
  intro l
  induction l with
  | nil => intro i hi; simp at hi
  | cons a t ih =>
    intro i hi
    cases i with
    | zero => simp
    | succ j =>
      have htne : t ≠ [] := by
        cases t with
        | nil => simp at hi
        | cons _ _ => simp
      rw [swapRemove_cons_succ a t j htne, List.take_succ_cons,
        List.take_succ_cons, ih j (by simpa using hi)]

/-- The tail beyond a swap-removed valid position draws from the original
tail one further along. -/
theorem swapRemove_drop_subset {α} : ∀ (l : List α) (i : Nat), i < l.length →
    ∀ a ∈ (swapRemove l i).drop i, a ∈ l.drop (i + 1) := by
  intro l
  induction l with
  | nil => intro i hi; simp at hi
  | cons x t ih =>
    intro i hi a ha
    cases i with
    | zero =>
      cases t with
      | nil =>
        rw [show swapRemove [x] 0 = [] from rfl] at ha
        simp at ha
      | cons b t2 =>
        rw [swapRemove, List.getLast?_cons_cons] at ha
        cases hgl : (b :: t2).getLast? with
        | none => simp at hgl
        | some z =>
          rw [hgl] at ha
          have ha2 : a ∈ ((x :: b :: t2).set 0 z).dropLast := by
            simpa using ha
          have ha3 : a ∈ (z :: b :: t2).dropLast := by
            simpa [List.set] using ha2
          rw [List.dropLast_cons₂] at ha3
          rcases List.mem_cons.1 ha3 with rfl | hmem
          · simpa using mem_of_getLast? hgl
          · simpa using List.dropLast_subset _ hmem
    | succ j =>
      have htne : t ≠ [] := by
        cases t with
        | nil => simp at hi
        | cons _ _ => simp
      rw [swapRemove_cons_succ x t j htne, List.drop_succ_cons] at ha
      rw [List.drop_succ_cons]
      exact ih j (by simpa using hi) a ha

/-- Vec::swap_remove keeps every member other than the removed one. -/
theorem swapRemove_mem_of_ne {α} : ∀ (l : List α) (i : Nat) (c a : α),
    l.get? i = some c → a ∈ l → a ≠ c → a ∈ swapRemove l i := by
  intro l
  induction l with
  | nil => intro i c a h; simp [List.get?] at h
  | cons x t ih =>
    intro i c a hget ha hne
    cases i with
    | zero =>
      have hx : x = c := by simpa using hget
      subst hx
      have hat : a ∈ t := by
        rcases List.mem_cons.1 ha with rfl | hmem
        · exact absurd rfl hne
        · exact hmem
      cases t with
      | nil => simp at hat
      | cons b t2 =>
        rw [swapRemove, List.getLast?_cons_cons]
        cases hgl : (b :: t2).getLast? with
        | none => simp at hgl
        | some z =>
          show a ∈ ((x :: b :: t2).set 0 z).dropLast
          have : (x :: b :: t2).set 0 z = z :: b :: t2 := by simp [List.set]
          rw [this, List.dropLast_cons₂]
          have hbt : b :: t2 ≠ [] := by simp
          have hsplit := List.dropLast_append_getLast hbt
          rw [← hsplit] at hat
          rcases List.mem_append.1 hat with hmem | hmem
          · exact List.mem_cons_of_mem _ hmem
          · have hz : z = (b :: t2).getLast hbt := by
              rw [List.getLast?_eq_getLast (b :: t2) hbt] at hgl
              exact (Option.some_inj.1 hgl).symm
            have : a = z := by
              rw [hz]
              simpa using hmem
            rw [this]
            exact List.mem_cons_self _ _
    | succ j =>
      have hgt : t.get? j = some c := by simpa using hget
      have htne : t ≠ [] := by
        cases t with
        | nil => simp [List.get?] at hgt
        | cons _ _ => simp
      rw [swapRemove_cons_succ x t j htne]
      rcases List.mem_cons.1 ha with rfl | hmem
      · exact List.mem_cons_self _ _
      · exact List.mem_cons_of_mem _ (ih j c a hgt hmem hne)

/-- Attaching a native resource never changes the submission indices. -/
theorem attachResource_map_index (active : List ActiveSubmission)
    (free : List NativeResource) (idx : Nat) (rid : Option ResourceId)
    (res : NativeResource) :
    ((attachResource active free idx rid res).1).map ActiveSubmission.index =
      active.map ActiveSubmission.index := by
  induction active with
  | nil => rfl
  | cons a rest ih =>
    by_cases h : a.index = idx
    · simp [attachResource, h]
    · simp [attachResource, h, ih]

/-- The free list after attaching keeps its members, and gains at most the
attached native. -/
theorem attachResource_free_mem (active : List ActiveSubmission)
    (free : List NativeResource) (idx : Nat) (rid : Option ResourceId)
    (res : NativeResource) :
    (∀ n ∈ free, n ∈ (attachResource active free idx rid res).2) ∧
    (∀ n ∈ (attachResource active free idx rid res).2, n ∈ free ∨ n = res) := by
  induction active with
  | nil =>
    constructor
    · intro n hn
      simp [attachResource]
      exact Or.inl hn
    · intro n hn
      simpa [attachResource] using hn
  | cons a rest ih =>
    by_cases h : a.index = idx
    · constructor
      · intro n hn
        simpa [attachResource, h] using hn
      · intro n hn
        exact Or.inl (by simpa [attachResource, h] using hn)
    · constructor
      · intro n hn
        simpa [attachResource, h] using ih.1 n hn
      · intro n hn
        exact ih.2 n (by simpa [attachResource, h] using hn)

/-- Natives tagged with a different resource id are untouched by an
attach. -/
theorem attachResource_tagged_other (active : List ActiveSubmission)
    (free : List NativeResource) (idx : Nat) (rid0 : ResourceId)
    (res : NativeResource) (t : ResourceId) (hne : rid0 ≠ t) :
    taggedNatives t (attachResource active free idx (some rid0) res).1 =
      taggedNatives t active := by
  induction active with
  | nil => rfl
  | cons a rest ih =>
    by_cases h : a.index = idx
    · simp [attachResource, h, taggedNatives, List.filterMap_append, hne]
    · simp only [attachResource, if_neg h]
      simp only [taggedNatives, List.flatMap_cons] at ih ⊢
      rw [ih]

/-- Tagged natives survive an attach, whatever the tag. -/
theorem attachResource_tagged_sub (active : List ActiveSubmission)
    (free : List NativeResource) (idx : Nat) (rid : Option ResourceId)
    (res : NativeResource) (t : ResourceId) :
    ∀ n ∈ taggedNatives t active,
      n ∈ taggedNatives t (attachResource active free idx rid res).1 := by
  induction active with
  | nil => intro n hn; simp [taggedNatives] at hn
  | cons a rest ih =>
    intro n hn
    simp only [taggedNatives, List.flatMap_cons, List.mem_append] at hn
    by_cases h : a.index = idx
    · simp only [attachResource, if_neg, if_pos h, taggedNatives,
        List.flatMap_cons, List.mem_append]
      rcases hn with hn | hn
      · exact Or.inl (by
          simp only [List.filterMap_append, List.mem_append]
          exact Or.inl hn)
      · exact Or.inr hn
    · simp only [attachResource, if_neg h, taggedNatives, List.flatMap_cons,
        List.mem_append]
      rcases hn with hn | hn
      · exact Or.inl hn
      · exact Or.inr (ih n hn)

/-- When some active submission has the wanted index, the attached native is
among the natives tagged with its resource id afterwards. -/
theorem attachResource_tagged_mem (active : List ActiveSubmission)
    (free : List NativeResource) (idx : Nat) (t : ResourceId)
    (res : NativeResource)
    (h : idx ∈ active.map ActiveSubmission.index) :
    res ∈ taggedNatives t (attachResource active free idx (some t) res).1 := by
  induction active with
  | nil => simp at h
  | cons a rest ih =>
    by_cases ha : a.index = idx
    · simp only [attachResource, if_pos ha, taggedNatives, List.flatMap_cons,
        List.mem_append]
      exact Or.inl (by simp [List.filterMap_append])
    · have hmem : idx ∈ rest.map ActiveSubmission.index := by
        rcases (by simpa using h : idx = a.index ∨
            ∃ b ∈ rest, b.index = idx) with h1 | h1
        · exact absurd h1.symm ha
        · simpa using h1
      simp only [attachResource, if_neg ha, taggedNatives, List.flatMap_cons,
        List.mem_append]
      exact Or.inr (by
        have := ih hmem
        simpa [taggedNatives] using this)

/-- Any tagged pair found in an active submission after an attach was already
there, unless it is the attached pair itself. -/
theorem attachResource_pairs_sub (active : List ActiveSubmission)
    (free : List NativeResource) (idx : Nat) (rid : Option ResourceId)
    (res : NativeResource) :
    ∀ x ∈ ((attachResource active free idx rid res).1).flatMap
        ActiveSubmission.resources,
      x ∈ active.flatMap ActiveSubmission.resources ∨ x = (rid, res) := by
  induction active with
  | nil => intro x hx; simp [attachResource] at hx
  | cons a rest ih =>
    intro x hx
    by_cases h : a.index = idx
    · simp only [attachResource, if_pos h, List.flatMap_cons, List.mem_append]
        at hx
      rcases hx with hx | hx
      · rcases (by simpa using hx : x ∈ a.resources ∨ x = (rid, res)) with
          h1 | h1
        · exact Or.inl (by
            simp only [List.flatMap_cons, List.mem_append]
            exact Or.inl h1)
        · exact Or.inr h1
      · exact Or.inl (by
          simp only [List.flatMap_cons, List.mem_append]
          exact Or.inr hx)
    · simp only [attachResource, if_neg h, List.flatMap_cons, List.mem_append]
        at hx
      rcases hx with hx | hx
      · exact Or.inl (by
          simp only [List.flatMap_cons, List.mem_append]
          exact Or.inl hx)
      · rcases ih x hx with h1 | h1
        · exact Or.inl (by
            simp only [List.flatMap_cons, List.mem_append]
            exact Or.inr h1)
        · exact Or.inr h1

/-- Each active submission survives an attach with its index and with all of
its tagged pairs. -/
theorem attachResource_extends (active : List ActiveSubmission)
    (free : List NativeResource) (idx : Nat) (rid : Option ResourceId)
    (res : NativeResource) :
    ∀ a ∈ active, ∃ a2 ∈ (attachResource active free idx rid res).1,
      a2.index = a.index ∧ ∀ x ∈ a.resources, x ∈ a2.resources := by
  induction active with
  | nil => intro a ha; simp at ha
  | cons b rest ih =>
    intro a ha
    by_cases h : b.index = idx
    · simp only [attachResource, if_pos h]
      rcases (by simpa using ha : a = b ∨ a ∈ rest) with h1 | h1
      · subst h1
        exact ⟨{ a with resources := a.resources ++ [(rid, res)] },
          by simp, rfl, fun x hx => by simp [hx]⟩
      · exact ⟨a, by simp [h1], rfl, fun x hx => hx⟩
    · simp only [attachResource, if_neg h]
      rcases (by simpa using ha : a = b ∨ a ∈ rest) with h1 | h1
      · subst h1
        exact ⟨a, by simp, rfl, fun x hx => hx⟩
      · obtain ⟨a2, ha2, hidx, hsub⟩ := ih a h1
        exact ⟨a2, by simp [ha2], hidx, hsub⟩

/-- When some active submission carries the wanted index, the attach places
the tagged pair in a submission with that index. -/
theorem attachResource_attaches (active : List ActiveSubmission)
    (free : List NativeResource) (idx : Nat) (rid : Option ResourceId)
    (res : NativeResource) (h : idx ∈ active.map ActiveSubmission.index) :
    ∃ a2 ∈ (attachResource active free idx rid res).1,
      a2.index = idx ∧ (rid, res) ∈ a2.resources := by
  induction active with
  | nil => simp at h
  | cons a rest ih =>
    by_cases ha : a.index = idx
    · simp only [attachResource, if_pos ha]
      exact ⟨{ a with resources := a.resources ++ [(rid, res)] },
        by simp, ha, by simp⟩
    · have hmem : idx ∈ rest.map ActiveSubmission.index := by
        rcases (by simpa using h : idx = a.index ∨
            ∃ b ∈ rest, b.index = idx) with h1 | h1
        · exact absurd h1.symm ha
        · simpa using h1
      obtain ⟨a2, ha2, hidx, hpair⟩ := ih hmem
      simp only [attachResource, if_neg ha]
      exact ⟨a2, by simp [ha2], hidx, hpair⟩

/-- When no active submission has the wanted index, the native resource is
pushed directly onto the free list. -/
theorem attachResource_no_match (active : List ActiveSubmission)
    (free : List NativeResource) (idx : Nat) (rid : Option ResourceId)
    (res : NativeResource) (h : ∀ a ∈ active, a.index ≠ idx) :
    attachResource active free idx rid res = (active, free ++ [res]) := by
  induction active with
  | nil => rfl
  | cons a rest ih =>
    have ha : ¬ a.index = idx := h a (List.mem_cons_self a rest)
    simp only [attachResource, if_neg ha,
      ih fun x hx => h x (List.mem_cons_of_mem _ hx)]

/-- The native resource is attached to the first active submission whose
index matches, leaving the free list alone. -/
theorem attachResource_first_match (pre post : List ActiveSubmission)
    (a : ActiveSubmission) (free : List NativeResource) (idx : Nat)
    (rid : Option ResourceId) (res : NativeResource)
    (hpre : ∀ x ∈ pre, x.index ≠ idx) (ha : a.index = idx) :
    attachResource (pre ++ a :: post) free idx rid res =
      (pre ++ { a with resources := a.resources ++ [(rid, res)] } :: post,
        free) := by
  induction pre with
  | nil => simp [attachResource, ha]
  | cons x rest ih =>
    have hx : ¬ x.index = idx := hpre x (List.mem_cons_self x rest)
    have ih' := ih fun y hy => hpre y (List.mem_cons_of_mem _ hy)
    simp only [List.cons_append, attachResource, if_neg hx]
    rw [show rest.append (a :: post) = rest ++ a :: post from rfl, ih']

/-- Exhaustive characterization of a successful triageEntry call: either the
buffer-with-pending-map skip (state unchanged), or one of the five teardown
shapes, each removing the resource from its store and the tracker and — apart
from a swap-chain texture — attaching the converted native resource. -/
theorem triageEntry_cases (st : TriageState) (rid : ResourceId)
    (st2 : TriageState) (h : triageEntry st rid = some st2) :
    st2 = st ∨
    (∃ b buf, rid = ResourceId.buffer b ∧
      st.hub.buffers.lookup b = some buf ∧
      buf.pendingMapOperation = none ∧
      st2 = { hub := { st.hub with
                buffers := st.hub.buffers.filter fun kv => kv.1 != b }
              trackers := { st.trackers with
                buffers := st.trackers.buffers.filter fun kv => kv.1 != b }
              pending := { st.pending with
                active := (attachResource st.pending.active st.pending.free
                  buf.submissionIndex (some (ResourceId.buffer b))
                  (NativeResource.buffer buf.raw buf.memory)).1
                free := (attachResource st.pending.active st.pending.free
                  buf.submissionIndex (some (ResourceId.buffer b))
                  (NativeResource.buffer buf.raw buf.memory)).2 } }) ∨
    (∃ t tex, rid = ResourceId.texture t ∧
      st.hub.textures.lookup t = some tex ∧
      tex.placement = TexturePlacement.swapChain ∧
      st2 = { st with
              hub := { st.hub with
                textures := st.hub.textures.filter fun kv => kv.1 != t }
              trackers := { st.trackers with
                textures := st.trackers.textures.filter fun x => x != t } }) ∨
    (∃ t tex block, rid = ResourceId.texture t ∧
      st.hub.textures.lookup t = some tex ∧
      tex.placement = TexturePlacement.memory block ∧
      st2 = { hub := { st.hub with
                textures := st.hub.textures.filter fun kv => kv.1 != t }
              trackers := { st.trackers with
                textures := st.trackers.textures.filter fun x => x != t }
              pending := { st.pending with
                active := (attachResource st.pending.active st.pending.free
                  tex.submissionIndex (some (ResourceId.texture t))
                  (NativeResource.image tex.raw block)).1
                free := (attachResource st.pending.active st.pending.free
                  tex.submissionIndex (some (ResourceId.texture t))
                  (NativeResource.image tex.raw block)).2 } }) ∨
    (∃ v vm, rid = ResourceId.textureView v ∧
      st.hub.views.lookup v = some vm ∧
      st2 = { hub := { st.hub with
                views := st.hub.views.filter fun kv => kv.1 != v }
              trackers := { st.trackers with
                views := st.trackers.views.filter fun x => x != v }
              pending := { st.pending with
                active := (attachResource st.pending.active st.pending.free
                  vm.submissionIndex (some (ResourceId.textureView v))
                  (NativeResource.imageView vm.raw)).1
                free := (attachResource st.pending.active st.pending.free
                  vm.submissionIndex (some (ResourceId.textureView v))
                  (NativeResource.imageView vm.raw)).2 } }) ∨
    (∃ g bg, rid = ResourceId.bindGroup g ∧
      st.hub.bindGroups.lookup g = some bg ∧
      st2 = { hub := { st.hub with
                bindGroups := st.hub.bindGroups.filter fun kv => kv.1 != g }
              trackers := { st.trackers with
                bindGroups := st.trackers.bindGroups.filter fun x => x != g }
              pending := { st.pending with
                active := (attachResource st.pending.active st.pending.free
                  bg.submissionIndex (some (ResourceId.bindGroup g))
                  (NativeResource.descriptorSet bg.raw)).1
                free := (attachResource st.pending.active st.pending.free
                  bg.submissionIndex (some (ResourceId.bindGroup g))
                  (NativeResource.descriptorSet bg.raw)).2 } }) := by
  cases rid with
  | buffer id =>
    simp only [triageEntry] at h
    split at h
    · simp at h
    · rename_i buf hlk
      split at h
      · exact Or.inl (Option.some.inj h).symm
      · rename_i hp
        exact Or.inr (Or.inl ⟨id, buf, rfl, hlk, by simpa using hp,
          (Option.some.inj h).symm⟩)
  | texture id =>
    simp only [triageEntry] at h
    split at h
    · simp at h
    · rename_i tex hlk
      split at h
      · rename_i hplace
        exact Or.inr (Or.inr (Or.inl ⟨id, tex, rfl, hlk, hplace,
          (Option.some.inj h).symm⟩))
      · rename_i block hplace
        exact Or.inr (Or.inr (Or.inr (Or.inl ⟨id, tex, block, rfl, hlk,
          hplace, (Option.some.inj h).symm⟩)))
  | textureView id =>
    simp only [triageEntry] at h
    split at h
    · simp at h
    · rename_i vm hlk
      exact Or.inr (Or.inr (Or.inr (Or.inr (Or.inl ⟨id, vm, rfl, hlk,
        (Option.some.inj h).symm⟩))))
  | bindGroup id =>
    simp only [triageEntry] at h
    split at h
    · simp at h
    · rename_i bg hlk
      exact Or.inr (Or.inr (Or.inr (Or.inr (Or.inr ⟨id, bg, rfl, hlk,
        (Option.some.inj h).symm⟩))))

/-- Facts preserved by every successful triageEntry call, whatever the
resource id: the referenced list and the submission indices are unchanged,
free-list members and attached pairs survive, and an id absent from a store
or tracker stays absent. -/
theorem triageEntry_mono {st st2 : TriageState} {rid : ResourceId}
    (h : triageEntry st rid = some st2) :
    st2.pending.referenced = st.pending.referenced ∧
    st2.pending.active.map ActiveSubmission.index =
      st.pending.active.map ActiveSubmission.index ∧
    (∀ n ∈ st.pending.free, n ∈ st2.pending.free) ∧
    (∀ a ∈ st.pending.active, ∃ a2 ∈ st2.pending.active,
      a2.index = a.index ∧ ∀ x ∈ a.resources, x ∈ a2.resources) ∧
    (∀ b, st.hub.buffers.lookup b = none → st2.hub.buffers.lookup b = none) ∧
    (∀ b, st.trackers.buffers.lookup b = none →
      st2.trackers.buffers.lookup b = none) ∧
    (∀ t, st.hub.textures.lookup t = none →
      st2.hub.textures.lookup t = none) ∧
    (∀ t, t ∉ st.trackers.textures → t ∉ st2.trackers.textures) ∧
    (∀ v, st.hub.views.lookup v = none → st2.hub.views.lookup v = none) ∧
    (∀ v, v ∉ st.trackers.views → v ∉ st2.trackers.views) ∧
    (∀ g, st.hub.bindGroups.lookup g = none →
      st2.hub.bindGroups.lookup g = none) ∧
    (∀ g, g ∉ st.trackers.bindGroups → g ∉ st2.trackers.bindGroups) := by
  rcases triageEntry_cases st rid st2 h with rfl |
    ⟨b, buf, rfl, hlk, hpend, rfl⟩ | ⟨t, tex, rfl, hlk, hplace, rfl⟩ |
    ⟨t, tex, block, rfl, hlk, hplace, rfl⟩ | ⟨v, vm, rfl, hlk, rfl⟩ |
    ⟨g, bg, rfl, hlk, rfl⟩
  · exact ⟨rfl, rfl, fun n hn => hn,
      fun a ha => ⟨a, ha, rfl, fun x hx => hx⟩,
      fun b hb => hb, fun b hb => hb, fun t ht => ht, fun t ht => ht,
      fun v hv => hv, fun v hv => hv, fun g hg => hg, fun g hg => hg⟩
  · exact ⟨rfl, attachResource_map_index _ _ _ _ _,
      (attachResource_free_mem _ _ _ _ _).1,
      attachResource_extends _ _ _ _ _,
      fun b2 hb2 => lookup_none_filter _ hb2,
      fun b2 hb2 => lookup_none_filter _ hb2,
      fun t ht => ht, fun t ht => ht,
      fun v hv => hv, fun v hv => hv, fun g hg => hg, fun g hg => hg⟩
  · exact ⟨rfl, rfl, fun n hn => hn,
      fun a ha => ⟨a, ha, rfl, fun x hx => hx⟩,
      fun b hb => hb, fun b hb => hb,
      fun t2 ht2 => lookup_none_filter _ ht2,
      fun t2 ht2 hm => ht2 (List.mem_of_mem_filter hm),
      fun v hv => hv, fun v hv => hv, fun g hg => hg, fun g hg => hg⟩
  · exact ⟨rfl, attachResource_map_index _ _ _ _ _,
      (attachResource_free_mem _ _ _ _ _).1,
      attachResource_extends _ _ _ _ _,
      fun b hb => hb, fun b hb => hb,
      fun t2 ht2 => lookup_none_filter _ ht2,
      fun t2 ht2 hm => ht2 (List.mem_of_mem_filter hm),
      fun v hv => hv, fun v hv => hv, fun g hg => hg, fun g hg => hg⟩
  · exact ⟨rfl, attachResource_map_index _ _ _ _ _,
      (attachResource_free_mem _ _ _ _ _).1,
      attachResource_extends _ _ _ _ _,
      fun b hb => hb, fun b hb => hb, fun t ht => ht, fun t ht => ht,
      fun v2 hv2 => lookup_none_filter _ hv2,
      fun v2 hv2 hm => hv2 (List.mem_of_mem_filter hm),
      fun g hg => hg, fun g hg => hg⟩
  · exact ⟨rfl, attachResource_map_index _ _ _ _ _,
      (attachResource_free_mem _ _ _ _ _).1,
      attachResource_extends _ _ _ _ _,
      fun b hb => hb, fun b hb => hb, fun t ht => ht, fun t ht => ht,
      fun v hv => hv, fun v hv => hv,
      fun g2 hg2 => lookup_none_filter _ hg2,
      fun g2 hg2 hm => hg2 (List.mem_of_mem_filter hm)⟩

/-- A successful triageEntry call leaves every store whose kind differs from
the processed id, and every differently-keyed entry of the same store,
with unchanged lookups, and never touches the natives tagged with a
different resource id. -/
theorem triageEntry_ne {st st2 : TriageState} {rid : ResourceId}
    (h : triageEntry st rid = some st2) :
    (∀ b, rid ≠ ResourceId.buffer b →
      st2.hub.buffers.lookup b = st.hub.buffers.lookup b) ∧
    (∀ t, rid ≠ ResourceId.texture t →
      st2.hub.textures.lookup t = st.hub.textures.lookup t) ∧
    (∀ v, rid ≠ ResourceId.textureView v →
      st2.hub.views.lookup v = st.hub.views.lookup v) ∧
    (∀ g, rid ≠ ResourceId.bindGroup g →
      st2.hub.bindGroups.lookup g = st.hub.bindGroups.lookup g) ∧
    (∀ t, rid ≠ t → taggedNatives t st2.pending.active =
      taggedNatives t st.pending.active) := by
  rcases triageEntry_cases st rid st2 h with rfl |
    ⟨b, buf, rfl, hlk, hpend, rfl⟩ | ⟨t, tex, rfl, hlk, hplace, rfl⟩ |
    ⟨t, tex, block, rfl, hlk, hplace, rfl⟩ | ⟨v, vm, rfl, hlk, rfl⟩ |
    ⟨g, bg, rfl, hlk, rfl⟩
  · exact ⟨fun _ _ => rfl, fun _ _ => rfl, fun _ _ => rfl, fun _ _ => rfl,
      fun _ _ => rfl⟩
  · refine ⟨fun b2 hne => ?_, fun _ _ => rfl, fun _ _ => rfl,
      fun _ _ => rfl, fun t hne => ?_⟩
    · exact lookup_filter_key_ne _ fun hh => hne (by rw [hh])
    · exact attachResource_tagged_other _ _ _ _ _ _ hne
  · refine ⟨fun _ _ => rfl, fun t2 hne => ?_, fun _ _ => rfl,
      fun _ _ => rfl, fun _ _ => rfl⟩
    exact lookup_filter_key_ne _ fun hh => hne (by rw [hh])
  · refine ⟨fun _ _ => rfl, fun t2 hne => ?_, fun _ _ => rfl,
      fun _ _ => rfl, fun t2 hne => ?_⟩
    · exact lookup_filter_key_ne _ fun hh => hne (by rw [hh])
    · exact attachResource_tagged_other _ _ _ _ _ _ hne
  · refine ⟨fun _ _ => rfl, fun _ _ => rfl, fun v2 hne => ?_,
      fun _ _ => rfl, fun t2 hne => ?_⟩
    · exact lookup_filter_key_ne _ fun hh => hne (by rw [hh])
    · exact attachResource_tagged_other _ _ _ _ _ _ hne
  · refine ⟨fun _ _ => rfl, fun _ _ => rfl, fun _ _ => rfl,
      fun g2 hne => ?_, fun t2 hne => ?_⟩
    · exact lookup_filter_key_ne _ fun hh => hne (by rw [hh])
    · exact attachResource_tagged_other _ _ _ _ _ _ hne

/-- A successful triageEntry call shrinks the buffer store: every surviving
entry was already there. -/
theorem triageEntry_hub_buffers_sub {st st2 : TriageState} {rid : ResourceId}
    (h : triageEntry st rid = some st2) :
    ∀ kv ∈ st2.hub.buffers, kv ∈ st.hub.buffers := by
  rcases triageEntry_cases st rid st2 h with rfl |
    ⟨b, buf, rfl, hlk, hpend, rfl⟩ | ⟨t, tex, rfl, hlk, hplace, rfl⟩ |
    ⟨t, tex, block, rfl, hlk, hplace, rfl⟩ | ⟨v, vm, rfl, hlk, rfl⟩ |
    ⟨g, bg, rfl, hlk, rfl⟩
  · exact fun kv hkv => hkv
  · exact fun kv hkv => List.mem_of_mem_filter hkv
  · exact fun kv hkv => hkv
  · exact fun kv hkv => hkv
  · exact fun kv hkv => hkv
  · exact fun kv hkv => hkv

/-- Any pair attached to an active submission after a successful triageEntry
call was either already attached or carries the native resource this very
call converted: a looked-up buffer's raw handle and memory for a buffer id,
and an image, image view or descriptor set for the other kinds. -/
theorem triageEntry_pairs {st st2 : TriageState} {rid : ResourceId}
    (h : triageEntry st rid = some st2) :
    ∀ x ∈ st2.pending.active.flatMap ActiveSubmission.resources,
      x ∈ st.pending.active.flatMap ActiveSubmission.resources ∨
      (∃ b buf, rid = ResourceId.buffer b ∧
        st.hub.buffers.lookup b = some buf ∧
        x.2 = NativeResource.buffer buf.raw buf.memory) ∨
      (∃ r m, x.2 = NativeResource.image r m) ∨
      (∃ r, x.2 = NativeResource.imageView r) ∨
      (∃ r, x.2 = NativeResource.descriptorSet r) := by
  rcases triageEntry_cases st rid st2 h with rfl |
    ⟨b, buf, rfl, hlk, hpend, rfl⟩ | ⟨t, tex, rfl, hlk, hplace, rfl⟩ |
    ⟨t, tex, block, rfl, hlk, hplace, rfl⟩ | ⟨v, vm, rfl, hlk, rfl⟩ |
    ⟨g, bg, rfl, hlk, rfl⟩
  · exact fun x hx => Or.inl hx
  · intro x hx
    rcases attachResource_pairs_sub _ _ _ _ _ x hx with h1 | h1
    · exact Or.inl h1
    · exact Or.inr (Or.inl ⟨b, buf, rfl, hlk, by rw [h1]⟩)
  · exact fun x hx => Or.inl hx
  · intro x hx
    rcases attachResource_pairs_sub _ _ _ _ _ x hx with h1 | h1
    · exact Or.inl h1
    · exact Or.inr (Or.inr (Or.inl ⟨tex.raw, block, by rw [h1]⟩))
  · intro x hx
    rcases attachResource_pairs_sub _ _ _ _ _ x hx with h1 | h1
    · exact Or.inl h1
    · exact Or.inr (Or.inr (Or.inr (Or.inl ⟨vm.raw, by rw [h1]⟩)))
  · intro x hx
    rcases attachResource_pairs_sub _ _ _ _ _ x hx with h1 | h1
    · exact Or.inl h1
    · exact Or.inr (Or.inr (Or.inr (Or.inr ⟨bg.raw, by rw [h1]⟩)))

/-- Any native on the free list after a successful triageEntry call was
either already free or is the native resource this very call converted. -/
theorem triageEntry_free_new {st st2 : TriageState} {rid : ResourceId}
    (h : triageEntry st rid = some st2) :
    ∀ n ∈ st2.pending.free,
      n ∈ st.pending.free ∨
      (∃ b buf, rid = ResourceId.buffer b ∧
        st.hub.buffers.lookup b = some buf ∧
        n = NativeResource.buffer buf.raw buf.memory) ∨
      (∃ r m, n = NativeResource.image r m) ∨
      (∃ r, n = NativeResource.imageView r) ∨
      (∃ r, n = NativeResource.descriptorSet r) := by
  rcases triageEntry_cases st rid st2 h with rfl |
    ⟨b, buf, rfl, hlk, hpend, rfl⟩ | ⟨t, tex, rfl, hlk, hplace, rfl⟩ |
    ⟨t, tex, block, rfl, hlk, hplace, rfl⟩ | ⟨v, vm, rfl, hlk, rfl⟩ |
    ⟨g, bg, rfl, hlk, rfl⟩
  · exact fun n hn => Or.inl hn
  · intro n hn
    rcases (attachResource_free_mem _ _ _ _ _).2 n hn with h1 | h1
    · exact Or.inl h1
    · exact Or.inr (Or.inl ⟨b, buf, rfl, hlk, h1⟩)
  · exact fun n hn => Or.inl hn
  · intro n hn
    rcases (attachResource_free_mem _ _ _ _ _).2 n hn with h1 | h1
    · exact Or.inl h1
    · exact Or.inr (Or.inr (Or.inl ⟨tex.raw, block, h1⟩))
  · intro n hn
    rcases (attachResource_free_mem _ _ _ _ _).2 n hn with h1 | h1
    · exact Or.inl h1
    · exact Or.inr (Or.inr (Or.inr (Or.inl ⟨vm.raw, h1⟩)))
  · intro n hn
    rcases (attachResource_free_mem _ _ _ _ _).2 n hn with h1 | h1
    · exact Or.inl h1
    · exact Or.inr (Or.inr (Or.inr (Or.inr ⟨bg.raw, h1⟩)))

/-- Processing a buffer id that is not in the buffer store is an index
panic. -/
theorem triageEntry_buffer_none {st : TriageState} {b : Nat}
    (hlk : st.hub.buffers.lookup b = none) :
    triageEntry st (ResourceId.buffer b) = none := by
  simp [triageEntry, hlk]

/-- Processing a texture id that is not in the texture store is an index
panic. -/
theorem triageEntry_texture_none {st : TriageState} {t : Nat}
    (hlk : st.hub.textures.lookup t = none) :
    triageEntry st (ResourceId.texture t) = none := by
  simp [triageEntry, hlk]

/-- Evaluation of triageEntry on a stored buffer with no pending map
operation: the buffer leaves the store and the tracker and its raw handle
and memory block are attached as a native resource. -/
theorem triageEntry_buffer_eq {st : TriageState} {b : Nat} {buf : BufferModel}
    (hlk : st.hub.buffers.lookup b = some buf)
    (hpend : buf.pendingMapOperation = none) :
    triageEntry st (ResourceId.buffer b) = some
      { hub := { st.hub with
          buffers := st.hub.buffers.filter fun kv => kv.1 != b }
        trackers := { st.trackers with
          buffers := st.trackers.buffers.filter fun kv => kv.1 != b }
        pending := { st.pending with
          active := (attachResource st.pending.active st.pending.free
            buf.submissionIndex (some (ResourceId.buffer b))
            (NativeResource.buffer buf.raw buf.memory)).1
          free := (attachResource st.pending.active st.pending.free
            buf.submissionIndex (some (ResourceId.buffer b))
            (NativeResource.buffer buf.raw buf.memory)).2 } } := by
  simp [triageEntry, hlk, hpend]

/-- Evaluation of triageEntry on a stored buffer with a pending map
operation: the state is returned unchanged (the `continue` branch). -/
theorem triageEntry_buffer_skip_eq {st : TriageState} {b : Nat}
    {buf : BufferModel} (hlk : st.hub.buffers.lookup b = some buf)
    (hpend : buf.pendingMapOperation.isSome = true) :
    triageEntry st (ResourceId.buffer b) = some st := by
  simp [triageEntry, hlk, hpend]

/-- Evaluation of triageEntry on a stored memory-placed texture. -/
theorem triageEntry_texture_memory_eq {st : TriageState} {t : Nat}
    {tex : TextureModel} {block : Nat}
    (hlk : st.hub.textures.lookup t = some tex)
    (hplace : tex.placement = TexturePlacement.memory block) :
    triageEntry st (ResourceId.texture t) = some
      { hub := { st.hub with
          textures := st.hub.textures.filter fun kv => kv.1 != t }
        trackers := { st.trackers with
          textures := st.trackers.textures.filter fun x => x != t }
        pending := { st.pending with
          active := (attachResource st.pending.active st.pending.free
            tex.submissionIndex (some (ResourceId.texture t))
            (NativeResource.image tex.raw block)).1
          free := (attachResource st.pending.active st.pending.free
            tex.submissionIndex (some (ResourceId.texture t))
            (NativeResource.image tex.raw block)).2 } } := by
  simp [triageEntry, hlk, hplace]

/-- Evaluation of triageEntry on a stored swap-chain texture: removed from
store and tracker, no native resource produced. -/
theorem triageEntry_texture_swap_eq {st : TriageState} {t : Nat}
    {tex : TextureModel} (hlk : st.hub.textures.lookup t = some tex)
    (hplace : tex.placement = TexturePlacement.swapChain) :
    triageEntry st (ResourceId.texture t) = some
      { st with
        hub := { st.hub with
          textures := st.hub.textures.filter fun kv => kv.1 != t }
        trackers := { st.trackers with
          textures := st.trackers.textures.filter fun x => x != t } } := by
  simp [triageEntry, hlk, hplace]

/-- Evaluation of triageEntry on a stored texture view. -/
theorem triageEntry_view_eq {st : TriageState} {v : Nat}
    {vm : TextureViewModel} (hlk : st.hub.views.lookup v = some vm) :
    triageEntry st (ResourceId.textureView v) = some
      { hub := { st.hub with
          views := st.hub.views.filter fun kv => kv.1 != v }
        trackers := { st.trackers with
          views := st.trackers.views.filter fun x => x != v }
        pending := { st.pending with
          active := (attachResource st.pending.active st.pending.free
            vm.submissionIndex (some (ResourceId.textureView v))
            (NativeResource.imageView vm.raw)).1
          free := (attachResource st.pending.active st.pending.free
            vm.submissionIndex (some (ResourceId.textureView v))
            (NativeResource.imageView vm.raw)).2 } } := by
  simp [triageEntry, hlk]

/-- Evaluation of triageEntry on a stored bind group. -/
theorem triageEntry_bind_group_eq {st : TriageState} {g : Nat}
    {bg : HubBindGroup} (hlk : st.hub.bindGroups.lookup g = some bg) :
    triageEntry st (ResourceId.bindGroup g) = some
      { hub := { st.hub with
          bindGroups := st.hub.bindGroups.filter fun kv => kv.1 != g }
        trackers := { st.trackers with
          bindGroups := st.trackers.bindGroups.filter fun x => x != g }
        pending := { st.pending with
          active := (attachResource st.pending.active st.pending.free
            bg.submissionIndex (some (ResourceId.bindGroup g))
            (NativeResource.descriptorSet bg.raw)).1
          free := (attachResource st.pending.active st.pending.free
            bg.submissionIndex (some (ResourceId.bindGroup g))
            (NativeResource.descriptorSet bg.raw)).2 } } := by
  simp [triageEntry, hlk]

/-- Membership in a take of the next length, away from the element at the
boundary position, is membership in the shorter take. -/
theorem mem_take_of_ne_get {α} {l : List α} {i : Nat} {a c : α}
    (h : a ∈ l.take (i + 1)) (hget : l.get? i = some c) (hne : a ≠ c) :
    a ∈ l.take i := by
  rw [List.take_succ] at h
  rcases List.mem_append.1 h with h1 | h1
  · exact h1
  · have hg : l[i]? = some c := by rw [← List.get?_eq_getElem?]; exact hget
    rw [hg] at h1
    simp at h1
    exact absurd h1 hne

/-- Loop invariant rule for the triage loop: a property of the state that
ignores the referenced list and is preserved by every successful
triageEntry call on an id listed at strong count 3 holds at the end of a
successful loop. -/
theorem triageLoop_inv (P : TriageState → Prop)
    (l0 : List (ResourceId × Nat))
    (hrefP : ∀ s r, P s →
      P { s with pending := { s.pending with referenced := r } })
    (hstep : ∀ s sE rid, (rid, 3) ∈ l0 → triageEntry s rid = some sE →
      P s → P sE) :
    ∀ fuel s s2, triageLoop s fuel = some s2 →
      (∀ r ∈ s.pending.referenced, r ∈ l0) → P s → P s2 := by
  intro fuel
  induction fuel with
  | zero =>
    intro s s2 h hsub hP
    rw [triageLoop] at h
    exact (Option.some.inj h) ▸ hP
  | succ i ih =>
    intro s s2 h hsub hP
    simp only [triageLoop] at h
    split at h
    · simp at h
    · rename_i rid numRefs hget
      split at h
      · rename_i h3
        split at h
        · rename_i he
          split at h
          · simp at h
          · rename_i sE hTE
            have hmem : (rid, 3) ∈ l0 := by
              have := hsub _ (List.get?_mem hget)
              rwa [he] at this
            have hPE : P sE :=
              hstep _ _ _ hmem hTE
                (hrefP s (swapRemove s.pending.referenced i) hP)
            have hsubE : ∀ r ∈ sE.pending.referenced, r ∈ l0 := by
              intro r hr
              rw [(triageEntry_mono hTE).1] at hr
              exact hsub r (swapRemove_subset hr)
            exact ih sE s2 h hsubE hPE
        · simp at h
      · exact ih s s2 h hsub hP

/-- Phase rule for the triage loop: with a target id listed at strong
count 3 inside the loop's remaining range, a pre-phase property P is carried
up to the step that processes the target, that step establishes Q, and Q is
carried to the end of a successful loop. -/
theorem triageLoop_phase (P Q : TriageState → Prop) (rid0 : ResourceId)
    (l0 : List (ResourceId × Nat))
    (hrefP : ∀ s r, P s →
      P { s with pending := { s.pending with referenced := r } })
    (hrefQ : ∀ s r, Q s →
      Q { s with pending := { s.pending with referenced := r } })
    (hstepP : ∀ s sE rid, (rid, 3) ∈ l0 → rid ≠ rid0 →
      triageEntry s rid = some sE → P s → P sE)
    (hstepPQ : ∀ s sE, triageEntry s rid0 = some sE → P s → Q sE)
    (hstepQ : ∀ s sE rid, (rid, 3) ∈ l0 → triageEntry s rid = some sE →
      Q s → Q sE) :
    ∀ fuel s s2, triageLoop s fuel = some s2 →
      (∀ r ∈ s.pending.referenced, r ∈ l0) →
      ((P s ∧ (rid0, 3) ∈ s.pending.referenced.take fuel) ∨ Q s) →
      Q s2 := by
  intro fuel
  induction fuel with
  | zero =>
    intro s s2 h hsub hd
    rw [triageLoop] at h
    rcases hd with ⟨-, htake⟩ | hQ
    · simp at htake
    · exact (Option.some.inj h) ▸ hQ
  | succ i ih =>
    intro s s2 h hsub hd
    simp only [triageLoop] at h
    split at h
    · simp at h
    · rename_i rid numRefs hget
      split at h
      · rename_i h3
        split at h
        · rename_i he
          split at h
          · simp at h
          · rename_i sE hTE
            subst he
            have hmem : (rid, 3) ∈ l0 := hsub _ (List.get?_mem hget)
            have hlt : i < s.pending.referenced.length :=
              (List.get?_eq_some.1 hget).1
            have hsubE : ∀ r ∈ sE.pending.referenced, r ∈ l0 := by
              intro r hr
              rw [(triageEntry_mono hTE).1] at hr
              exact hsub r (swapRemove_subset hr)
            rcases hd with ⟨hP, htake⟩ | hQ
            · by_cases hr0 : rid = rid0
              · subst hr0
                have hQE : Q sE :=
                  hstepPQ _ _ hTE
                    (hrefP s (swapRemove s.pending.referenced i) hP)
                exact ih sE s2 h hsubE (Or.inr hQE)
              · have hPE : P sE :=
                  hstepP _ _ _ hmem hr0 hTE
                    (hrefP s (swapRemove s.pending.referenced i) hP)
                have htakeE : (rid0, 3) ∈ sE.pending.referenced.take i := by
                  rw [(triageEntry_mono hTE).1]
                  rw [swapRemove_take _ _ hlt]
                  refine mem_take_of_ne_get htake hget ?_
                  intro hh
                  exact hr0 (congrArg Prod.fst hh).symm
                exact ih sE s2 h hsubE (Or.inl ⟨hPE, htakeE⟩)
            · exact ih sE s2 h hsubE
                (Or.inr (hstepQ _ _ _ hmem hTE
                  (hrefQ s (swapRemove s.pending.referenced i) hQ)))
        · simp at h
      · rename_i h3
        rcases hd with ⟨hP, htake⟩ | hQ
        · have htake2 : (rid0, 3) ∈ s.pending.referenced.take i := by
            refine mem_take_of_ne_get htake hget ?_
            intro hh
            have : (3 : Nat) = numRefs := congrArg Prod.snd hh
            omega
          exact ih s s2 h hsub (Or.inl ⟨hP, htake2⟩)
        · exact ih s s2 h hsub (Or.inr hQ)

/-- Every entry surviving a successful triage loop has strong count at least
MIN_REFS, provided the entries beyond the loop's range already do. -/
theorem triageLoop_survivors :
    ∀ fuel s s2, triageLoop s fuel = some s2 →
      (∀ r ∈ s.pending.referenced.drop fuel, MIN_REFS ≤ r.2) →
      ∀ r ∈ s2.pending.referenced, MIN_REFS ≤ r.2 := by
  intro fuel
  induction fuel with
  | zero =>
    intro s s2 h hdrop
    rw [triageLoop] at h
    exact (Option.some.inj h) ▸ hdrop
  | succ i ih =>
    intro s s2 h hdrop
    simp only [triageLoop] at h
    split at h
    · simp at h
    · rename_i rid numRefs hget
      split at h
      · rename_i h3
        split at h
        · rename_i he
          split at h
          · simp at h
          · rename_i sE hTE
            have hlt : i < s.pending.referenced.length :=
              (List.get?_eq_some.1 hget).1
            refine ih sE s2 h ?_
            intro r hr
            rw [(triageEntry_mono hTE).1] at hr
            exact hdrop r (swapRemove_drop_subset _ _ hlt r hr)
        · simp at h
      · rename_i h3
        refine ih s s2 h ?_
        intro r hr
        rw [drop_eq_cons_of_get? hget] at hr
        rcases (by simpa using hr :
            r = (rid, numRefs) ∨ r ∈ s.pending.referenced.drop (i + 1)) with
          h1 | h1
        · subst h1
          simp only [MIN_REFS]
          omega
        · exact hdrop r h1

/-- Every entry of the referenced list with strong count at least MIN_REFS
survives a successful triage loop. -/
theorem triageLoop_keeps_high :
    ∀ fuel s s2, triageLoop s fuel = some s2 →
      ∀ e ∈ s.pending.referenced, MIN_REFS ≤ e.2 →
        e ∈ s2.pending.referenced := by
  intro fuel
  induction fuel with
  | zero =>
    intro s s2 h e he hhigh
    rw [triageLoop] at h
    exact (Option.some.inj h) ▸ he
  | succ i ih =>
    intro s s2 h e he hhigh
    simp only [triageLoop] at h
    split at h
    · simp at h
    · rename_i rid numRefs hget
      split at h
      · rename_i h3
        split at h
        · rename_i he3
          split at h
          · simp at h
          · rename_i sE hTE
            refine ih sE s2 h e ?_ hhigh
            rw [(triageEntry_mono hTE).1]
            refine swapRemove_mem_of_ne _ _ _ _ hget he ?_
            intro hh
            have : e.2 = numRefs := by rw [hh]
            simp only [MIN_REFS] at hhigh
            omega
        · simp at h
      · exact ih s s2 h e he hhigh

/-- Every entry surviving a successful triage loop was on the referenced
list when the loop started. -/
theorem triageLoop_sub :
    ∀ fuel s s2, triageLoop s fuel = some s2 →
      ∀ e ∈ s2.pending.referenced, e ∈ s.pending.referenced := by
  intro fuel
  induction fuel with
  | zero =>
    intro s s2 h e he
    rw [triageLoop] at h
    exact (Option.some.inj h) ▸ he
  | succ i ih =>
    intro s s2 h e he
    simp only [triageLoop] at h
    split at h
    · simp at h
    · rename_i rid numRefs hget
      split at h
      · rename_i h3
        split at h
        · rename_i he3
          split at h
          · simp at h
          · rename_i sE hTE
            have := ih sE s2 h e he
            rw [(triageEntry_mono hTE).1] at this
            exact swapRemove_subset this
        · simp at h
      · exact ih s s2 h e he

/-- Invariant rule for triage_referenced as a whole: the early all-high
return changes nothing, and otherwise the loop rule applies with the
starting referenced list bounding the processed entries. -/
theorem triageReferenced_inv (P : TriageState → Prop) (st st2 : TriageState)
    (hrefP : ∀ s r, P s →
      P { s with pending := { s.pending with referenced := r } })
    (hstep : ∀ s sE rid, (rid, 3) ∈ st.pending.referenced →
      triageEntry s rid = some sE → P s → P sE)
    (hrun : triageReferenced st = some st2) (hP : P st) : P st2 := by
  rw [triageReferenced] at hrun
  split at hrun
  · exact (Option.some.inj hrun) ▸ hP
  · exact triageLoop_inv P st.pending.referenced hrefP hstep _ st st2 hrun
      (fun r hr => hr) hP

/-- Phase rule for triage_referenced as a whole: an id listed at strong
count 3 forces the loop branch, and the loop phase rule applies over the
full list. -/
theorem triageReferenced_phase (P Q : TriageState → Prop)
    (rid0 : ResourceId) (st st2 : TriageState)
    (hrefP : ∀ s r, P s →
      P { s with pending := { s.pending with referenced := r } })
    (hrefQ : ∀ s r, Q s →
      Q { s with pending := { s.pending with referenced := r } })
    (hstepP : ∀ s sE rid, (rid, 3) ∈ st.pending.referenced → rid ≠ rid0 →
      triageEntry s rid = some sE → P s → P sE)
    (hstepPQ : ∀ s sE, triageEntry s rid0 = some sE → P s → Q sE)
    (hstepQ : ∀ s sE rid, (rid, 3) ∈ st.pending.referenced →
      triageEntry s rid = some sE → Q s → Q sE)
    (hmem : (rid0, 3) ∈ st.pending.referenced)
    (hrun : triageReferenced st = some st2) (hP : P st) : Q st2 := by
  rw [triageReferenced] at hrun
  split at hrun
  · rename_i hall
    have := List.all_eq_true.1 hall _ hmem
    simp [MIN_REFS] at this
  · refine triageLoop_phase P Q rid0 st.pending.referenced hrefP hrefQ
      hstepP hstepPQ hstepQ _ st st2 hrun (fun r hr => hr) (Or.inl ⟨hP, ?_⟩)
    rw [List.take_length st.pending.referenced]
    exact hmem

/-- Every entry surviving a successful triage_referenced call was on the
list at the start with strong count at least MIN_REFS. -/
theorem triageReferenced_survivors (st st2 : TriageState)
    (hrun : triageReferenced st = some st2) :
    ∀ r ∈ st2.pending.referenced,
      r ∈ st.pending.referenced ∧ MIN_REFS ≤ r.2 := by
  rw [triageReferenced] at hrun
  split at hrun
  · rename_i hall
    obtain rfl := Option.some.inj hrun
    intro r hr
    have := List.all_eq_true.1 hall _ hr
    simp only [decide_eq_true_eq] at this
    exact ⟨hr, this⟩
  · intro r hr
    refine ⟨triageLoop_sub _ st st2 hrun r hr, ?_⟩
    refine triageLoop_survivors _ st st2 hrun ?_ r hr
    intro r2 hr2
    rw [List.drop_length] at hr2
    simp at hr2

/-- Every entry with strong count at least MIN_REFS survives a successful
triage_referenced call. -/
theorem triageReferenced_keeps_high (st st2 : TriageState)
    (hrun : triageReferenced st = some st2) :
    ∀ e ∈ st.pending.referenced, MIN_REFS ≤ e.2 →
      e ∈ st2.pending.referenced := by
  rw [triageReferenced] at hrun
  split at hrun
  · obtain rfl := Option.some.inj hrun
    exact fun e he _ => he
  · exact triageLoop_keeps_high _ st st2 hrun

/-- A buffer listed at strong count 3 with no pending map operation is torn
down by a successful triage_referenced call: out of the store and the
tracker, its native routed to the matching active submission or to free. -/
theorem triageReferenced_buffer_teardown (st st2 : TriageState) (b : Nat)
    (buf : BufferModel)
    (hrun : triageReferenced st = some st2)
    (hmem : (ResourceId.buffer b, 3) ∈ st.pending.referenced)
    (hlk : st.hub.buffers.lookup b = some buf)
    (hpend : buf.pendingMapOperation = none) :
    st2.hub.buffers.lookup b = none ∧
    st2.trackers.buffers.lookup b = none ∧
    (buf.submissionIndex ∈ st.pending.active.map ActiveSubmission.index →
      ∃ a ∈ st2.pending.active, a.index = buf.submissionIndex ∧
        (some (ResourceId.buffer b),
          NativeResource.buffer buf.raw buf.memory) ∈ a.resources) ∧
    (buf.submissionIndex ∉ st.pending.active.map ActiveSubmission.index →
      NativeResource.buffer buf.raw buf.memory ∈ st2.pending.free) := by
  refine triageReferenced_phase
    (fun s => s.hub.buffers.lookup b = some buf ∧
      s.pending.active.map ActiveSubmission.index =
        st.pending.active.map ActiveSubmission.index)
    (fun s => s.hub.buffers.lookup b = none ∧
      s.trackers.buffers.lookup b = none ∧
      (buf.submissionIndex ∈ st.pending.active.map ActiveSubmission.index →
        ∃ a ∈ s.pending.active, a.index = buf.submissionIndex ∧
          (some (ResourceId.buffer b),
            NativeResource.buffer buf.raw buf.memory) ∈ a.resources) ∧
      (buf.submissionIndex ∉ st.pending.active.map ActiveSubmission.index →
        NativeResource.buffer buf.raw buf.memory ∈ s.pending.free))
    (ResourceId.buffer b) st st2
    (fun s r h => h) (fun s r h => h) ?_ ?_ ?_ hmem hrun ⟨hlk, rfl⟩
  · intro s sE rid hmem2 hne hTE hP
    refine ⟨?_, ?_⟩
    · rw [(triageEntry_ne hTE).1 b hne]
      exact hP.1
    · rw [(triageEntry_mono hTE).2.1]
      exact hP.2
  · intro s sE hTE hP
    rw [triageEntry_buffer_eq hP.1 hpend] at hTE
    obtain rfl := Option.some.inj hTE
    refine ⟨lookup_filter_key_self _ _, lookup_filter_key_self _ _, ?_, ?_⟩
    · intro hidx
      exact attachResource_attaches _ _ _ _ _ (by rw [hP.2]; exact hidx)
    · intro hidx
      have hno : ∀ a ∈ s.pending.active, a.index ≠ buf.submissionIndex := by
        intro a ha hh
        exact hidx (by rw [← hP.2]; exact List.mem_map.2 ⟨a, ha, hh⟩)
      show NativeResource.buffer buf.raw buf.memory ∈
        (attachResource s.pending.active s.pending.free buf.submissionIndex
          (some (ResourceId.buffer b))
          (NativeResource.buffer buf.raw buf.memory)).2
      rw [attachResource_no_match _ _ _ _ _ hno]
      simp
  · intro s sE rid hmem2 hTE hQ
    obtain ⟨h1, h2, h3, h4⟩ := hQ
    obtain ⟨-, -, hfree, hext, hbufN, htrkbN, -⟩ := triageEntry_mono hTE
    refine ⟨hbufN b h1, htrkbN b h2, ?_, ?_⟩
    · intro hidx
      obtain ⟨a, ha, haidx, hpair⟩ := h3 hidx
      obtain ⟨a2, ha2, haidx2, hsub2⟩ := hext a ha
      exact ⟨a2, ha2, by rw [haidx2, haidx], hsub2 _ hpair⟩
    · intro hidx
      exact hfree _ (h4 hidx)

/-- A memory-placed texture listed at strong count 3 is torn down by a
successful triage_referenced call: out of the store and the tracker, its
image and memory block routed to the matching active submission or to
free. -/
theorem triageReferenced_texture_teardown (st st2 : TriageState) (t : Nat)
    (tex : TextureModel) (block : Nat)
    (hrun : triageReferenced st = some st2)
    (hmem : (ResourceId.texture t, 3) ∈ st.pending.referenced)
    (hlk : st.hub.textures.lookup t = some tex)
    (hplace : tex.placement = TexturePlacement.memory block) :
    st2.hub.textures.lookup t = none ∧
    t ∉ st2.trackers.textures ∧
    (tex.submissionIndex ∈ st.pending.active.map ActiveSubmission.index →
      ∃ a ∈ st2.pending.active, a.index = tex.submissionIndex ∧
        (some (ResourceId.texture t),
          NativeResource.image tex.raw block) ∈ a.resources) ∧
    (tex.submissionIndex ∉ st.pending.active.map ActiveSubmission.index →
      NativeResource.image tex.raw block ∈ st2.pending.free) := by
  refine triageReferenced_phase
    (fun s => s.hub.textures.lookup t = some tex ∧
      s.pending.active.map ActiveSubmission.index =
        st.pending.active.map ActiveSubmission.index)
    (fun s => s.hub.textures.lookup t = none ∧
      t ∉ s.trackers.textures ∧
      (tex.submissionIndex ∈ st.pending.active.map ActiveSubmission.index →
        ∃ a ∈ s.pending.active, a.index = tex.submissionIndex ∧
          (some (ResourceId.texture t),
            NativeResource.image tex.raw block) ∈ a.resources) ∧
      (tex.submissionIndex ∉ st.pending.active.map ActiveSubmission.index →
        NativeResource.image tex.raw block ∈ s.pending.free))
    (ResourceId.texture t) st st2
    (fun s r h => h) (fun s r h => h) ?_ ?_ ?_ hmem hrun ⟨hlk, rfl⟩
  · intro s sE rid hmem2 hne hTE hP
    refine ⟨?_, ?_⟩
    · rw [(triageEntry_ne hTE).2.1 t hne]
      exact hP.1
    · rw [(triageEntry_mono hTE).2.1]
      exact hP.2
  · intro s sE hTE hP
    rw [triageEntry_texture_memory_eq hP.1 hplace] at hTE
    obtain rfl := Option.some.inj hTE
    refine ⟨lookup_filter_key_self _ _, not_mem_filter_id_self _ _, ?_, ?_⟩
    · intro hidx
      exact attachResource_attaches _ _ _ _ _ (by rw [hP.2]; exact hidx)
    · intro hidx
      have hno : ∀ a ∈ s.pending.active, a.index ≠ tex.submissionIndex := by
        intro a ha hh
        exact hidx (by rw [← hP.2]; exact List.mem_map.2 ⟨a, ha, hh⟩)
      show NativeResource.image tex.raw block ∈
        (attachResource s.pending.active s.pending.free tex.submissionIndex
          (some (ResourceId.texture t))
          (NativeResource.image tex.raw block)).2
      rw [attachResource_no_match _ _ _ _ _ hno]
      simp
  · intro s sE rid hmem2 hTE hQ
    obtain ⟨h1, h2, h3, h4⟩ := hQ
    obtain ⟨-, -, hfree, hext, -, -, htexN, htrkTexN, -⟩ :=
      triageEntry_mono hTE
    refine ⟨htexN t h1, htrkTexN t h2, ?_, ?_⟩
    · intro hidx
      obtain ⟨a, ha, haidx, hpair⟩ := h3 hidx
      obtain ⟨a2, ha2, haidx2, hsub2⟩ := hext a ha
      exact ⟨a2, ha2, by rw [haidx2, haidx], hsub2 _ hpair⟩
    · intro hidx
      exact hfree _ (h4 hidx)

/-- A swap-chain-placed texture listed at strong count 3 is removed from
its store and from the tracker by a successful triage_referenced call
without producing a native resource: the natives tagged with its id are
exactly those already attached before the call. -/
theorem triageReferenced_swap_chain_texture (st st2 : TriageState) (t : Nat)
    (tex : TextureModel)
    (hrun : triageReferenced st = some st2)
    (hmem : (ResourceId.texture t, 3) ∈ st.pending.referenced)
    (hlk : st.hub.textures.lookup t = some tex)
    (hplace : tex.placement = TexturePlacement.swapChain) :
    st2.hub.textures.lookup t = none ∧
    t ∉ st2.trackers.textures ∧
    taggedNatives (ResourceId.texture t) st2.pending.active =
      taggedNatives (ResourceId.texture t) st.pending.active := by
  refine triageReferenced_phase
    (fun s => s.hub.textures.lookup t = some tex ∧
      taggedNatives (ResourceId.texture t) s.pending.active =
        taggedNatives (ResourceId.texture t) st.pending.active)
    (fun s => s.hub.textures.lookup t = none ∧
      t ∉ s.trackers.textures ∧
      taggedNatives (ResourceId.texture t) s.pending.active =
        taggedNatives (ResourceId.texture t) st.pending.active)
    (ResourceId.texture t) st st2
    (fun s r h => h) (fun s r h => h) ?_ ?_ ?_ hmem hrun ⟨hlk, rfl⟩
  · intro s sE rid hmem2 hne hTE hP
    refine ⟨?_, ?_⟩
    · rw [(triageEntry_ne hTE).2.1 t hne]
      exact hP.1
    · rw [(triageEntry_ne hTE).2.2.2.2 _ hne]
      exact hP.2
  · intro s sE hTE hP
    rw [triageEntry_texture_swap_eq hP.1 hplace] at hTE
    obtain rfl := Option.some.inj hTE
    exact ⟨lookup_filter_key_self _ _, not_mem_filter_id_self _ _, hP.2⟩
  · intro s sE rid hmem2 hTE hQ
    obtain ⟨h1, h2, h3⟩ := hQ
    obtain ⟨-, -, -, -, -, -, htexN, htrkTexN, -⟩ := triageEntry_mono hTE
    refine ⟨htexN t h1, htrkTexN t h2, ?_⟩
    by_cases hr : rid = ResourceId.texture t
    · subst hr
      rw [triageEntry_texture_none h1] at hTE
      exact absurd hTE (by simp)
    · rw [(triageEntry_ne hTE).2.2.2.2 _ hr]
      exact h3

/-- A texture view listed at strong count 3 is torn down by a successful
triage_referenced call: out of the store and the tracker, its raw image
view routed to the matching active submission or to free. -/
theorem triageReferenced_view_teardown (st st2 : TriageState) (v : Nat)
    (vm : TextureViewModel)
    (hrun : triageReferenced st = some st2)
    (hmem : (ResourceId.textureView v, 3) ∈ st.pending.referenced)
    (hlk : st.hub.views.lookup v = some vm) :
    st2.hub.views.lookup v = none ∧
    v ∉ st2.trackers.views ∧
    (vm.submissionIndex ∈ st.pending.active.map ActiveSubmission.index →
      ∃ a ∈ st2.pending.active, a.index = vm.submissionIndex ∧
        (some (ResourceId.textureView v),
          NativeResource.imageView vm.raw) ∈ a.resources) ∧
    (vm.submissionIndex ∉ st.pending.active.map ActiveSubmission.index →
      NativeResource.imageView vm.raw ∈ st2.pending.free) := by
  refine triageReferenced_phase
    (fun s => s.hub.views.lookup v = some vm ∧
      s.pending.active.map ActiveSubmission.index =
        st.pending.active.map ActiveSubmission.index)
    (fun s => s.hub.views.lookup v = none ∧
      v ∉ s.trackers.views ∧
      (vm.submissionIndex ∈ st.pending.active.map ActiveSubmission.index →
        ∃ a ∈ s.pending.active, a.index = vm.submissionIndex ∧
          (some (ResourceId.textureView v),
            NativeResource.imageView vm.raw) ∈ a.resources) ∧
      (vm.submissionIndex ∉ st.pending.active.map ActiveSubmission.index →
        NativeResource.imageView vm.raw ∈ s.pending.free))
    (ResourceId.textureView v) st st2
    (fun s r h => h) (fun s r h => h) ?_ ?_ ?_ hmem hrun ⟨hlk, rfl⟩
  · intro s sE rid hmem2 hne hTE hP
    refine ⟨?_, ?_⟩
    · rw [(triageEntry_ne hTE).2.2.1 v hne]
      exact hP.1
    · rw [(triageEntry_mono hTE).2.1]
      exact hP.2
  · intro s sE hTE hP
    rw [triageEntry_view_eq hP.1] at hTE
    obtain rfl := Option.some.inj hTE
    refine ⟨lookup_filter_key_self _ _, not_mem_filter_id_self _ _, ?_, ?_⟩
    · intro hidx
      exact attachResource_attaches _ _ _ _ _ (by rw [hP.2]; exact hidx)
    · intro hidx
      have hno : ∀ a ∈ s.pending.active, a.index ≠ vm.submissionIndex := by
        intro a ha hh
        exact hidx (by rw [← hP.2]; exact List.mem_map.2 ⟨a, ha, hh⟩)
      show NativeResource.imageView vm.raw ∈
        (attachResource s.pending.active s.pending.free vm.submissionIndex
          (some (ResourceId.textureView v))
          (NativeResource.imageView vm.raw)).2
      rw [attachResource_no_match _ _ _ _ _ hno]
      simp
  · intro s sE rid hmem2 hTE hQ
    obtain ⟨h1, h2, h3, h4⟩ := hQ
    obtain ⟨-, -, hfree, hext, -, -, -, -, hviewN, htrkViewN, -⟩ :=
      triageEntry_mono hTE
    refine ⟨hviewN v h1, htrkViewN v h2, ?_, ?_⟩
    · intro hidx
      obtain ⟨a, ha, haidx, hpair⟩ := h3 hidx
      obtain ⟨a2, ha2, haidx2, hsub2⟩ := hext a ha
      exact ⟨a2, ha2, by rw [haidx2, haidx], hsub2 _ hpair⟩
    · intro hidx
      exact hfree _ (h4 hidx)

/-- A bind group listed at strong count 3 is torn down by a successful
triage_referenced call: out of the store and the tracker, its raw
descriptor set routed to the matching active submission or to free. -/
theorem triageReferenced_bind_group_teardown (st st2 : TriageState) (g : Nat)
    (bg : HubBindGroup)
    (hrun : triageReferenced st = some st2)
    (hmem : (ResourceId.bindGroup g, 3) ∈ st.pending.referenced)
    (hlk : st.hub.bindGroups.lookup g = some bg) :
    st2.hub.bindGroups.lookup g = none ∧
    g ∉ st2.trackers.bindGroups ∧
    (bg.submissionIndex ∈ st.pending.active.map ActiveSubmission.index →
      ∃ a ∈ st2.pending.active, a.index = bg.submissionIndex ∧
        (some (ResourceId.bindGroup g),
          NativeResource.descriptorSet bg.raw) ∈ a.resources) ∧
    (bg.submissionIndex ∉ st.pending.active.map ActiveSubmission.index →
      NativeResource.descriptorSet bg.raw ∈ st2.pending.free) := by
  refine triageReferenced_phase
    (fun s => s.hub.bindGroups.lookup g = some bg ∧
      s.pending.active.map ActiveSubmission.index =
        st.pending.active.map ActiveSubmission.index)
    (fun s => s.hub.bindGroups.lookup g = none ∧
      g ∉ s.trackers.bindGroups ∧
      (bg.submissionIndex ∈ st.pending.active.map ActiveSubmission.index →
        ∃ a ∈ s.pending.active, a.index = bg.submissionIndex ∧
          (some (ResourceId.bindGroup g),
            NativeResource.descriptorSet bg.raw) ∈ a.resources) ∧
      (bg.submissionIndex ∉ st.pending.active.map ActiveSubmission.index →
        NativeResource.descriptorSet bg.raw ∈ s.pending.free))
    (ResourceId.bindGroup g) st st2
    (fun s r h => h) (fun s r h => h) ?_ ?_ ?_ hmem hrun ⟨hlk, rfl⟩
  · intro s sE rid hmem2 hne hTE hP
    refine ⟨?_, ?_⟩
    · rw [(triageEntry_ne hTE).2.2.2.1 g hne]
      exact hP.1
    · rw [(triageEntry_mono hTE).2.1]
      exact hP.2
  · intro s sE hTE hP
    rw [triageEntry_bind_group_eq hP.1] at hTE
    obtain rfl := Option.some.inj hTE
    refine ⟨lookup_filter_key_self _ _, not_mem_filter_id_self _ _, ?_, ?_⟩
    · intro hidx
      exact attachResource_attaches _ _ _ _ _ (by rw [hP.2]; exact hidx)
    · intro hidx
      have hno : ∀ a ∈ s.pending.active, a.index ≠ bg.submissionIndex := by
        intro a ha hh
        exact hidx (by rw [← hP.2]; exact List.mem_map.2 ⟨a, ha, hh⟩)
      show NativeResource.descriptorSet bg.raw ∈
        (attachResource s.pending.active s.pending.free bg.submissionIndex
          (some (ResourceId.bindGroup g))
          (NativeResource.descriptorSet bg.raw)).2
      rw [attachResource_no_match _ _ _ _ _ hno]
      simp
  · intro s sE rid hmem2 hTE hQ
    obtain ⟨h1, h2, h3, h4⟩ := hQ
    obtain ⟨-, -, hfree, hext, -, -, -, -, -, -, hbgN, htrkBgN⟩ :=
      triageEntry_mono hTE
    refine ⟨hbgN g h1, htrkBgN g h2, ?_, ?_⟩
    · intro hidx
      obtain ⟨a, ha, haidx, hpair⟩ := h3 hidx
      obtain ⟨a2, ha2, haidx2, hsub2⟩ := hext a ha
      exact ⟨a2, ha2, by rw [haidx2, haidx], hsub2 _ hpair⟩
    · intro hidx
      exact hfree _ (h4 hidx)

/-- Every element of the prefix of a list up to the first element failing a
test passes the test. -/
theorem mem_take_findIdx_not {α} (p : α → Bool) (l : List α) :
    ∀ a ∈ l.take (l.findIdx fun x => ! p x), p a = true := by
  induction l with
  | nil => simp
  | cons h t ih =>
    intro a ha
    by_cases hp : p h
    · rw [List.findIdx_cons] at ha
      simp only [hp, Bool.not_true, cond_false] at ha
      rw [List.take_succ_cons] at ha
      rcases List.mem_cons.1 ha with rfl | hmem
      · exact hp
      · exact ih a hmem
    · rw [List.findIdx_cons] at ha
      simp only [Bool.not_eq_true] at hp
      simp [hp] at ha

/-- C4 counterexample: with no submission retiring in the call (here: no
active submission at all), cleanup returns 0 and leaves the non-empty
`free` list untouched, destroying nothing — the early return skips the
`free` drain. -/
theorem cleanup_skips_free_when_none_done :
    cleanup (fun _ => true) pendingFreeOnly = (0, pendingFreeOnly, []) ∧
    pendingFreeOnly.free ≠ [] := by
  constructor
  · rfl
  · simp [pendingFreeOnly]

/-- C4 (amended): when at least one leading submission's fence is signaled,
cleanup empties `free`, hands every item previously in `free` plus the
drained submissions' resources to the backend destructors, and returns the
index of the last submission drained in this call (the largest retired,
since `active` is FIFO); when no leading submission is signaled it returns
0 early and the `free` drain is skipped. -/
theorem cleanup_drains_free :
    (∀ (status : Nat → Bool) (p : PendingResources),
      p.active.findIdx (fun a => ! status a.fence) = 0 →
      cleanup status p = (0, p, [])) ∧
    (∀ (status : Nat → Bool) (p : PendingResources),
      0 < p.active.findIdx (fun a => ! status a.fence) →
      ((cleanup status p).2.1.free = [] ∧
       (cleanup status p).2.2 =
         p.free ++ (p.active.take (p.active.findIdx fun a => ! status a.fence)).flatMap
           (fun a => a.resources.map Prod.snd) ∧
       (cleanup status p).1 =
         ((p.active.get? ((p.active.findIdx fun a => ! status a.fence) - 1)).map
           ActiveSubmission.index).getD 0)) := by
  constructor
  · intro status p h
    simp [cleanup, h]
  · intro status p h
    have h0 : ¬ (p.active.findIdx fun a => ! status a.fence) = 0 := by omega
    refine ⟨?_, ?_, ?_⟩ <;> simp [cleanup, h0]

/-- C4 witness: one signaled submission; its framebuffer is destroyed along
with nothing else, `free` ends empty, and index 3 is returned. -/
theorem cleanup_drains_free_witness :
    (cleanup (fun _ => true) pendingOneActive).2.1.free = [] ∧
    (cleanup (fun _ => true) pendingOneActive).2.2 =
      pendingOneActive.free ++
        (pendingOneActive.active.take
          (pendingOneActive.active.findIdx fun a => ! (fun _ => true) a.fence)).flatMap
          (fun a => a.resources.map Prod.snd) ∧
    (cleanup (fun _ => true) pendingOneActive).1 =
      ((pendingOneActive.active.get?
        ((pendingOneActive.active.findIdx fun a => ! (fun _ => true) a.fence) - 1)).map
        ActiveSubmission.index).getD 0 :=
  cleanup_drains_free.2 (fun _ => true) pendingOneActive (by decide)

/-- C2: cleanup drains exactly a prefix of `active` (the part before the
first unsignaled fence, every drained fence being signaled), so with
`active` in FIFO order (indices strictly increasing) a retired submission
index s2 forces every smaller index s1 present in `active` to be retired in
the same call. -/
theorem cleanup_retires_fifo :
    ∀ (status : Nat → Bool) (p : PendingResources) (s1 s2 : Nat),
    List.Pairwise (· < ·) (p.active.map ActiveSubmission.index) →
    s1 ∈ p.active.map ActiveSubmission.index →
    s2 ∈ (p.active.take (p.active.findIdx fun a => ! status a.fence)).map
      ActiveSubmission.index →
    s1 < s2 →
    ((cleanup status p).2.1.active =
        p.active.drop (p.active.findIdx fun a => ! status a.fence) ∧
     (∀ a ∈ p.active.take (p.active.findIdx fun a => ! status a.fence),
        status a.fence = true) ∧
     s1 ∈ (p.active.take (p.active.findIdx fun a => ! status a.fence)).map
        ActiveSubmission.index) := by
  intro status p s1 s2 hsorted hs1 hs2 hlt
  refine ⟨?_, ?_, ?_⟩
  · by_cases h : (p.active.findIdx fun a => ! status a.fence) = 0
    · simp [cleanup, h]
    · simp [cleanup, h]
  · exact mem_take_findIdx_not (fun a => status a.fence) p.active
  · set dc := p.active.findIdx (fun a => ! status a.fence) with hdc
    have hs2' : s2 ∈ (p.active.map ActiveSubmission.index).take dc := by
      rw [← List.map_take]; exact hs2
    rw [List.map_take]
    have hsplit := List.take_append_drop dc (p.active.map ActiveSubmission.index)
    have hs1' : s1 ∈ (p.active.map ActiveSubmission.index).take dc ++
        (p.active.map ActiveSubmission.index).drop dc := by
      rw [hsplit]; exact hs1
    rcases List.mem_append.1 hs1' with hmem | hmem
    · exact hmem
    · exfalso
      have hsorted' : List.Pairwise (· < ·)
          ((p.active.map ActiveSubmission.index).take dc ++
            (p.active.map ActiveSubmission.index).drop dc) := by
        rw [hsplit]; exact hsorted
      have hcross := (List.pairwise_append.1 hsorted').2.2 s2 hs2' s1 hmem
      omega

/-- C2 witness: two signaled submissions with indices 1 < 2; both retire in
the same call and index 1 is in the drained prefix. -/
theorem cleanup_retires_fifo_witness :
    ((cleanup (fun _ => true) pendingTwoActive).2.1.active =
        pendingTwoActive.active.drop
          (pendingTwoActive.active.findIdx fun a => ! (fun _ => true) a.fence) ∧
     (∀ a ∈ pendingTwoActive.active.take
          (pendingTwoActive.active.findIdx fun a => ! (fun _ => true) a.fence),
        (fun _ => true) a.fence = true) ∧
     (1 : Nat) ∈ (pendingTwoActive.active.take
        (pendingTwoActive.active.findIdx fun a => ! (fun _ => true) a.fence)).map
        ActiveSubmission.index) :=
  cleanup_retires_fifo (fun _ => true) pendingTwoActive 1 2 (by decide) (by decide)
    (by decide) (by decide)

/-- C3 (amended): for every entry of an arbitrary referenced list, a
successful triage_referenced call leaves entries with strong count at least
4 untouched while every surviving entry is an original entry with count at
least 4; an entry listed at count exactly 3 has its resource torn down —
pulled out of its storage, removed from the device tracker, converted to
the matching NativeResource variant and attached to the first active
submission whose index equals its last-submission index, or pushed directly
to free when none matches — except that a buffer with a pending map
operation is skipped after entry removal and a swap-chain-placed texture is
removed from storage and tracker without producing a native resource. -/
theorem triage_referenced_teardown (st st2 : TriageState)
    (hrun : triageReferenced st = some st2) :
    (∀ e ∈ st.pending.referenced, MIN_REFS ≤ e.2 →
      e ∈ st2.pending.referenced) ∧
    (∀ e ∈ st2.pending.referenced,
      e ∈ st.pending.referenced ∧ MIN_REFS ≤ e.2) ∧
    (∀ b buf, (ResourceId.buffer b, 3) ∈ st.pending.referenced →
      st.hub.buffers.lookup b = some buf →
      buf.pendingMapOperation = none →
      st2.hub.buffers.lookup b = none ∧
      st2.trackers.buffers.lookup b = none ∧
      (buf.submissionIndex ∈ st.pending.active.map ActiveSubmission.index →
        ∃ a ∈ st2.pending.active, a.index = buf.submissionIndex ∧
          (some (ResourceId.buffer b),
            NativeResource.buffer buf.raw buf.memory) ∈ a.resources) ∧
      (buf.submissionIndex ∉ st.pending.active.map ActiveSubmission.index →
        NativeResource.buffer buf.raw buf.memory ∈ st2.pending.free)) ∧
    (∀ t tex block, (ResourceId.texture t, 3) ∈ st.pending.referenced →
      st.hub.textures.lookup t = some tex →
      tex.placement = TexturePlacement.memory block →
      st2.hub.textures.lookup t = none ∧
      t ∉ st2.trackers.textures ∧
      (tex.submissionIndex ∈ st.pending.active.map ActiveSubmission.index →
        ∃ a ∈ st2.pending.active, a.index = tex.submissionIndex ∧
          (some (ResourceId.texture t),
            NativeResource.image tex.raw block) ∈ a.resources) ∧
      (tex.submissionIndex ∉ st.pending.active.map ActiveSubmission.index →
        NativeResource.image tex.raw block ∈ st2.pending.free)) ∧
    (∀ t tex, (ResourceId.texture t, 3) ∈ st.pending.referenced →
      st.hub.textures.lookup t = some tex →
      tex.placement = TexturePlacement.swapChain →
      st2.hub.textures.lookup t = none ∧
      t ∉ st2.trackers.textures ∧
      taggedNatives (ResourceId.texture t) st2.pending.active =
        taggedNatives (ResourceId.texture t) st.pending.active) ∧
    (∀ v vm, (ResourceId.textureView v, 3) ∈ st.pending.referenced →
      st.hub.views.lookup v = some vm →
      st2.hub.views.lookup v = none ∧
      v ∉ st2.trackers.views ∧
      (vm.submissionIndex ∈ st.pending.active.map ActiveSubmission.index →
        ∃ a ∈ st2.pending.active, a.index = vm.submissionIndex ∧
          (some (ResourceId.textureView v),
            NativeResource.imageView vm.raw) ∈ a.resources) ∧
      (vm.submissionIndex ∉ st.pending.active.map ActiveSubmission.index →
        NativeResource.imageView vm.raw ∈ st2.pending.free)) ∧
    (∀ g bg, (ResourceId.bindGroup g, 3) ∈ st.pending.referenced →
      st.hub.bindGroups.lookup g = some bg →
      st2.hub.bindGroups.lookup g = none ∧
      g ∉ st2.trackers.bindGroups ∧
      (bg.submissionIndex ∈ st.pending.active.map ActiveSubmission.index →
        ∃ a ∈ st2.pending.active, a.index = bg.submissionIndex ∧
          (some (ResourceId.bindGroup g),
            NativeResource.descriptorSet bg.raw) ∈ a.resources) ∧
      (bg.submissionIndex ∉ st.pending.active.map ActiveSubmission.index →
        NativeResource.descriptorSet bg.raw ∈ st2.pending.free)) :=
  ⟨triageReferenced_keeps_high st st2 hrun,
   triageReferenced_survivors st st2 hrun,
   fun b buf hm hl hp =>
     triageReferenced_buffer_teardown st st2 b buf hrun hm hl hp,
   fun t tex block hm hl hp =>
     triageReferenced_texture_teardown st st2 t tex block hrun hm hl hp,
   fun t tex hm hl hp =>
     triageReferenced_swap_chain_texture st st2 t tex hrun hm hl hp,
   fun v vm hm hl =>
     triageReferenced_view_teardown st st2 v vm hrun hm hl,
   fun g bg hm hl =>
     triageReferenced_bind_group_teardown st st2 g bg hrun hm hl⟩

/-- C3 witness: a two-entry referenced list mixing a count-4 texture with a
count-3 buffer; the buffer is torn down (store and tracker emptied of it,
its native attached to the matching submission) while the texture entry
survives. -/
theorem triage_referenced_teardown_witness :
    triageReferenced stMixed = some stMixedAfter ∧
    ((ResourceId.texture 9, 4) ∈ stMixedAfter.pending.referenced ∧
     stMixedAfter.hub.buffers.lookup 5 = none ∧
     stMixedAfter.trackers.buffers.lookup 5 = none ∧
     ∃ a ∈ stMixedAfter.pending.active, a.index = 3 ∧
       (some (ResourceId.buffer 5),
         NativeResource.buffer 50 60) ∈ a.resources) := by
  have h := triage_referenced_teardown stMixed stMixedAfter (by decide)
  obtain ⟨hA, -, hC, -⟩ := h
  obtain ⟨h1, h2, h3, -⟩ := hC 5 bufTear (by decide) (by decide) (by decide)
  exact ⟨by decide,
    hA (ResourceId.texture 9, 4) (by decide) (by decide),
    h1, h2, h3 (by decide)⟩

/-- C10: a user-destroyed buffer on an arbitrary referenced list whose
strong count has dropped to 3 but that still has a pending map operation
only has its entry removed by a successful triage_referenced call: the
buffer stays in its store and the device tracker entry for it is untouched,
and — with raw buffer handles unique — its native buffer and memory block
are routed neither to the free list nor to any active submission. -/
theorem triage_keeps_pending_map_buffer (st st2 : TriageState) (b : Nat)
    (buf : BufferModel)
    (hmem : (ResourceId.buffer b, 3) ∈ st.pending.referenced)
    (hlk : st.hub.buffers.lookup b = some buf)
    (hpend : buf.pendingMapOperation.isSome = true)
    (huniq : ∀ kv ∈ st.hub.buffers, kv.2.raw = buf.raw → kv.1 = b)
    (hfree : NativeResource.buffer buf.raw buf.memory ∉ st.pending.free)
    (hrun : triageReferenced st = some st2) :
    (ResourceId.buffer b, 3) ∉ st2.pending.referenced ∧
    st2.hub.buffers.lookup b = some buf ∧
    st2.trackers.buffers.lookup b = st.trackers.buffers.lookup b ∧
    NativeResource.buffer buf.raw buf.memory ∉ st2.pending.free ∧
    (∀ x ∈ st2.pending.active.flatMap ActiveSubmission.resources,
      x.2 = NativeResource.buffer buf.raw buf.memory →
      x ∈ st.pending.active.flatMap ActiveSubmission.resources) := by
  have hsur := triageReferenced_survivors st st2 hrun
  have hinv : st2.hub.buffers.lookup b = some buf ∧
      st2.trackers.buffers.lookup b = st.trackers.buffers.lookup b ∧
      (∀ kv ∈ st2.hub.buffers, kv ∈ st.hub.buffers) ∧
      NativeResource.buffer buf.raw buf.memory ∉ st2.pending.free ∧
      (∀ x ∈ st2.pending.active.flatMap ActiveSubmission.resources,
        x.2 = NativeResource.buffer buf.raw buf.memory →
        x ∈ st.pending.active.flatMap ActiveSubmission.resources) := by
    refine triageReferenced_inv
      (fun s => s.hub.buffers.lookup b = some buf ∧
        s.trackers.buffers.lookup b = st.trackers.buffers.lookup b ∧
        (∀ kv ∈ s.hub.buffers, kv ∈ st.hub.buffers) ∧
        NativeResource.buffer buf.raw buf.memory ∉ s.pending.free ∧
        (∀ x ∈ s.pending.active.flatMap ActiveSubmission.resources,
          x.2 = NativeResource.buffer buf.raw buf.memory →
          x ∈ st.pending.active.flatMap ActiveSubmission.resources))
      st st2 (fun s r h => h) ?_ hrun
      ⟨hlk, rfl, fun kv hkv => hkv, hfree, fun x hx hx2 => hx⟩
    intro s sE rid hmem2 hTE hP
    obtain ⟨hP1, hP2, hP3, hP4, hP5⟩ := hP
    rcases triageEntry_cases s rid sE hTE with rfl |
      ⟨b2, buf2, rfl, hlk2, hpend2, rfl⟩ |
      ⟨t, tex, rfl, hlk2, hplace, rfl⟩ |
      ⟨t, tex, block, rfl, hlk2, hplace, rfl⟩ |
      ⟨v, vm, rfl, hlk2, rfl⟩ | ⟨g, bg, rfl, hlk2, rfl⟩
    · exact ⟨hP1, hP2, hP3, hP4, hP5⟩
    · have hb2 : b2 ≠ b := by
        intro hh
        subst hh
        rw [hP1] at hlk2
        obtain rfl := Option.some.inj hlk2
        rw [hpend2] at hpend
        simp at hpend
      have hbb : b ≠ b2 := fun hh => hb2 hh.symm
      refine ⟨(lookup_filter_key_ne _ hbb).trans hP1,
        (lookup_filter_key_ne _ hbb).trans hP2,
        fun kv hkv => hP3 kv (List.mem_of_mem_filter hkv), ?_, ?_⟩
      · intro hcon
        rcases (attachResource_free_mem _ _ _ _ _).2 _ hcon with h1 | h1
        · exact hP4 h1
        · have hraw : buf2.raw = buf.raw := by
            injection h1 with h1a h1b
            exact h1a.symm
          exact hb2 (huniq _ (hP3 _ (mem_of_lookup hlk2)) hraw)
      · intro x hx hxt
        rcases attachResource_pairs_sub _ _ _ _ _ x hx with h1 | h1
        · exact hP5 x h1 hxt
        · rw [h1] at hxt
          have h2 : NativeResource.buffer buf2.raw buf2.memory =
              NativeResource.buffer buf.raw buf.memory := hxt
          rw [NativeResource.buffer.injEq] at h2
          exact absurd (huniq _ (hP3 _ (mem_of_lookup hlk2)) h2.1) hb2
    · exact ⟨hP1, hP2, hP3, hP4, hP5⟩
    · refine ⟨hP1, hP2, hP3, ?_, ?_⟩
      · intro hcon
        rcases (attachResource_free_mem _ _ _ _ _).2 _ hcon with h1 | h1
        · exact hP4 h1
        · simp at h1
      · intro x hx hxt
        rcases attachResource_pairs_sub _ _ _ _ _ x hx with h1 | h1
        · exact hP5 x h1 hxt
        · rw [h1] at hxt
          simp at hxt
    · refine ⟨hP1, hP2, hP3, ?_, ?_⟩
      · intro hcon
        rcases (attachResource_free_mem _ _ _ _ _).2 _ hcon with h1 | h1
        · exact hP4 h1
        · simp at h1
      · intro x hx hxt
        rcases attachResource_pairs_sub _ _ _ _ _ x hx with h1 | h1
        · exact hP5 x h1 hxt
        · rw [h1] at hxt
          simp at hxt
    · refine ⟨hP1, hP2, hP3, ?_, ?_⟩
      · intro hcon
        rcases (attachResource_free_mem _ _ _ _ _).2 _ hcon with h1 | h1
        · exact hP4 h1
        · simp at h1
      · intro x hx hxt
        rcases attachResource_pairs_sub _ _ _ _ _ x hx with h1 | h1
        · exact hP5 x h1 hxt
        · rw [h1] at hxt
          simp at hxt
  refine ⟨?_, hinv.1, hinv.2.1, hinv.2.2.2.1, hinv.2.2.2.2⟩
  intro hcon
  have := (hsur _ hcon).2
  simp [MIN_REFS] at this

/-- C10 witness: a two-entry referenced list holding a pending-map buffer at
count 3 next to a count-3 texture; the texture is torn down while the
buffer survives in store and tracker with nothing of it routed. -/
theorem triage_keeps_pending_map_buffer_witness :
    triageReferenced stMixed10 = some stMixed10After ∧
    ((ResourceId.buffer 5, 3) ∉ stMixed10After.pending.referenced ∧
     stMixed10After.hub.buffers.lookup 5 = some bufPend10 ∧
     NativeResource.buffer 50 60 ∉ stMixed10After.pending.free) := by
  have h := triage_keeps_pending_map_buffer stMixed10 stMixed10After 5
    bufPend10 (by decide) (by decide) (by decide) (by decide) (by decide)
    (by decide)
  exact ⟨by decide, h.1, h.2.1, h.2.2.2.1⟩

/-- C3 counterexample: an entry whose strong count is exactly 3 is not torn
down when its buffer has a pending map operation — the entry is removed but
the buffer stays in its storage and in the device tracker, and nothing is
routed to any submission or to free. -/
theorem triage_count3_no_teardown :
    triageReferenced stBufferPendingMap = some stBufferPendingMapAfter ∧
    stBufferPendingMap.pending.referenced = [(ResourceId.buffer 5, 3)] ∧
    stBufferPendingMapAfter.hub.buffers.lookup 5 = some bufPendingMap ∧
    stBufferPendingMapAfter.trackers.buffers = stBufferPendingMap.trackers.buffers ∧
    stBufferPendingMapAfter.pending.free = [] ∧
    stBufferPendingMapAfter.pending.active = [] := by
  decide

/-- Looking up the updated key after the pending-map store yields the
rewritten buffer. -/
theorem storePendingMap_lookup (l : List (Nat × BufferModel)) (id : Nat)
    (op : BufferMapOperation) :
    (storePendingMap l id op).lookup id =
      (l.lookup id).map fun b => { b with pendingMapOperation := some op } := by
  induction l with
  | nil => rfl
  | cons kv t ih =>
    obtain ⟨k, v⟩ := kv
    by_cases h : k = id
    · subst h
      simp [storePendingMap, List.lookup]
    · have hbe : (id == k) = false := beq_eq_false_iff_ne.mpr (Ne.symm h)
      simp [storePendingMap, List.lookup, h, hbe, ih]

/-- Looking up any other key after the pending-map store is unchanged. -/
theorem storePendingMap_lookup_ne (l : List (Nat × BufferModel)) (id j : Nat)
    (op : BufferMapOperation) (hne : j ≠ id) :
    (storePendingMap l id op).lookup j = l.lookup j := by
  induction l with
  | nil => rfl
  | cons kv t ih =>
    obtain ⟨k, v⟩ := kv
    by_cases h : k = id
    · subst h
      have hbe : (j == k) = false := beq_eq_false_iff_ne.mpr hne
      simp [storePendingMap, List.lookup, hbe, ih]
    · simp [storePendingMap, List.lookup, h, ih]

/-- C6: buffer_map_async on a buffer with a pending map operation fires the
new operation's callback immediately with the Error status and a null
pointer and changes nothing (same state returned, so the stored pending
operation, the device tracker and the mapped list are untouched); on a
buffer without one it stores the operation, records the requested usage in
the device tracker and appends the buffer to the lifecycle engine's mapped
list, leaving every other buffer and the other pending lists unchanged. -/
theorem buffer_map_async_behavior :
    ∀ (st : DeviceState) (id usage : Nat) (op : BufferMapOperation)
      (buf : BufferModel),
    st.buffers.lookup id = some buf →
    ((∀ pendingOp, buf.pendingMapOperation = some pendingOp →
        bufferMapAsync st id usage op = some (st, some op.callError) ∧
        op.callError.status = BufferMapAsyncStatus.error ∧
        op.callError.pointerIsNull = true) ∧
     (buf.pendingMapOperation = none →
        bufferMapAsync st id usage op = some
          ({ buffers := storePendingMap st.buffers id op
             trackers := st.trackers.changeReplaceBuffer id usage
             pending :=
               { st.pending with mapped := st.pending.mapped ++ [id] } },
            none) ∧
        (storePendingMap st.buffers id op).lookup id =
          some { buf with pendingMapOperation := some op } ∧
        (∀ j, j ≠ id →
          (storePendingMap st.buffers id op).lookup j = st.buffers.lookup j) ∧
        (st.trackers.changeReplaceBuffer id usage).buffers.lookup id =
          some usage)) := by
  intro st id usage op buf hlook
  constructor
  · intro pendingOp hpend
    refine ⟨?_, ?_, ?_⟩
    · simp [bufferMapAsync, hlook, hpend]
    · cases op <;> rfl
    · cases op <;> rfl
  · intro hpend
    refine ⟨?_, ?_, ?_, ?_⟩
    · simp [bufferMapAsync, hlook, hpend]
    · rw [storePendingMap_lookup, hlook]
      rfl
    · intro j hj
      exact storePendingMap_lookup_ne st.buffers id j op hj
    · simp [TrackerSet.changeReplaceBuffer, List.lookup]

/-- C6 witness: the fresh branch at the concrete one-buffer device state. -/
theorem buffer_map_async_behavior_witness :
    bufferMapAsync devStFresh 4 BufferUsage.MAP_WRITE opWrite = some
      ({ buffers := storePendingMap devStFresh.buffers 4 opWrite
         trackers := devStFresh.trackers.changeReplaceBuffer 4 BufferUsage.MAP_WRITE
         pending :=
           { devStFresh.pending with
               mapped := devStFresh.pending.mapped ++ [4] } },
        none) :=
  ((buffer_map_async_behavior devStFresh 4 BufferUsage.MAP_WRITE opWrite
      bufFresh rfl).2 rfl).1

/-- C1 counterexample: re-providing slot 0 with a different group of the
matching layout (a compatible replacement) while slot 1 holds a compatible
group: the code returns an empty follow-up iterator (end = index + 1),
whereas the claim's end = compatible_prefix = 4 would draw slots 1..4 and
yield group 101. -/
theorem provide_entry_follow_up_counterexample :
    binderTwoBound.provideEntry 0 102 { layoutId := 1 } [] =
      some (binderTwoBoundAfter, some (10, [], [])) ∧
    binderTwoBoundAfter.compatibleCount = 4 ∧
    (0 : Nat) < 4 ∧
    takeSome (((binderTwoBoundAfter.entries.drop 1).take
        (binderTwoBoundAfter.compatibleCount - 1)).map
        BindGroupEntry.actualValue) = [101] ∧
    ([] : List Nat) ≠ [101] := by
  refine ⟨by decide, by decide, by decide, by decide, by decide⟩

/-- C1 (amended): when provide_entry changes the binding at slot `index`:
if `index` is at or above the compatible prefix, or no pipeline layout is
set, it returns None; otherwise it returns the pipeline layout and the
follow-up groups and offsets drawn from slots `index+1 .. end` with
`end = min(compatible_prefix, index+1 if the previously bound group was
compatible else MAX_BIND_GROUPS)`, which is `index+1` (no follow-ups) in
the compatible case and `compatible_prefix` otherwise. -/
theorem provide_entry_amended :
    ∀ (b : Binder) (index gid : Nat) (bg : BindGroupModel)
      (offsets : List Nat) (e0 e1 : BindGroupEntry) (wc : Bool) (b1 : Binder),
    b.entries.length = 4 →
    b.entries.get? index = some e0 →
    e0.provide gid bg offsets = some (e1, Provision.changed wc) →
    b1 = { b with entries := b.entries.set index e1 } →
    ((b1.compatibleCount ≤ index →
        b.provideEntry index gid bg offsets = some (b1, none)) ∧
     (index < b1.compatibleCount → b1.pipelineLayoutId = none →
        b.provideEntry index gid bg offsets = some (b1, none)) ∧
     (∀ pl, index < b1.compatibleCount → b1.pipelineLayoutId = some pl →
        (b.provideEntry index gid bg offsets = some (b1, some (pl,
          takeSome (((b1.entries.drop (index + 1)).take
            ((if wc then index + 1 else b1.compatibleCount) - (index + 1))).map
            BindGroupEntry.actualValue),
          ((b1.entries.drop (index + 1)).take
            ((if wc then index + 1 else b1.compatibleCount) - (index + 1))).flatMap
            BindGroupEntry.dynamicOffsets)) ∧
         (wc = true →
          b.provideEntry index gid bg offsets =
            some (b1, some (pl, [], [])))))) := by
  intro b index gid bg offsets e0 e1 wc b1 hlen hget hprov hb1
  subst hb1
  have hget' : b.entries[index]? = some e0 := by
    rw [← List.get?_eq_getElem?]
    exact hget
  have hcc4 : ((b.entries.set index e1).findIdx fun e => ! e.isValid) ≤ 4 := by
    have hle : ((b.entries.set index e1).findIdx fun e => ! e.isValid) ≤
        (b.entries.set index e1).length := List.findIdx_le_length _
    rw [List.length_set, hlen] at hle
    exact hle
  refine ⟨?_, ?_, ?_⟩
  · intro hle0
    have hnl : ¬ index < ((b.entries.set index e1).findIdx fun e => ! e.isValid) := by
      simp only [Binder.compatibleCount] at hle0
      omega
    simp [Binder.provideEntry, Binder.compatibleCount, hget', hprov, hnl]
  · intro hlt hpl
    have hlt' : index < ((b.entries.set index e1).findIdx fun e => ! e.isValid) := by
      simpa [Binder.compatibleCount] using hlt
    simp only [Binder.pipelineLayoutId] at hpl
    simp [Binder.provideEntry, Binder.compatibleCount, hget', hprov, hlt', hpl]
  · intro pl hlt hpl
    have hlt' : index < ((b.entries.set index e1).findIdx fun e => ! e.isValid) := by
      simpa [Binder.compatibleCount] using hlt
    simp only [Binder.pipelineLayoutId] at hpl
    have hmin : min ((b.entries.set index e1).findIdx fun e => ! e.isValid)
        (if wc then index + 1 else MAX_BIND_GROUPS) =
        if wc then index + 1
        else (b.entries.set index e1).findIdx fun e => ! e.isValid := by
      cases wc with
      | true =>
        rw [if_pos rfl, if_pos rfl]
        omega
      | false =>
        rw [if_neg (by decide), if_neg (by decide)]
        simp only [MAX_BIND_GROUPS]
        omega
    constructor
    · simp [Binder.provideEntry, Binder.compatibleCount, hget', hprov, hlt',
        hpl, hmin]
    · intro hwc
      subst hwc
      simp [Binder.provideEntry, Binder.compatibleCount, hget', hprov, hlt',
        hpl, hmin, takeSome]

/-- C1 witness: the compatible replacement at slot 0 returns the pipeline
layout with no follow-ups. -/
theorem provide_entry_amended_witness :
    binderTwoBound.provideEntry 0 102 { layoutId := 1 } [] =
      some (binderTwoBoundAfter, some (10, [], [])) :=
  ((provide_entry_amended binderTwoBound 0 102 { layoutId := 1 } []
      { expectedLayoutId := some 1
        provided := some { layoutId := 1, groupId := 100 }
        dynamicOffsets := [] }
      { expectedLayoutId := some 1
        provided := some { layoutId := 1, groupId := 102 }
        dynamicOffsets := [] }
      true binderTwoBoundAfter rfl rfl (by decide) (by decide)).2.2 10
      (by decide) rfl).2 rfl

/-- Bit i of the invalid mask is set exactly when slot i is invalid
(pipeline expects a layout there with no matching provided group). -/
theorem invalidMask_testBit (b : Binder) (hlen : b.entries.length = 4) :
    ∀ i, i < 4 →
    (b.invalidMask).testBit i = ! (b.entries.getD i default).isValid := by
  obtain ⟨pl, entries⟩ := b
  rcases entries with _ | ⟨e0, _ | ⟨e1, _ | ⟨e2, _ | ⟨e3, _ | ⟨e4, tl⟩⟩⟩⟩⟩ <;>
    simp only [List.length] at hlen <;> try omega
  intro i hi
  interval_cases i <;>
    cases h0 : e0.isValid <;> cases h1 : e1.isValid <;>
    cases h2 : e2.isValid <;> cases h3 : e3.isValid <;>
    simp [Binder.invalidMask, h0, h1, h2, h3, List.enum, List.enumFrom] <;>
    decide

/-- The trailing-zero count of a non-zero invalid mask is the position of
the first invalid slot. -/
theorem trailingZeros8_invalidMask (b : Binder) (hlen : b.entries.length = 4)
    (hne : b.invalidMask ≠ 0) :
    trailingZeros8 b.invalidMask = b.entries.findIdx fun e => ! e.isValid := by
  obtain ⟨pl, entries⟩ := b
  rcases entries with _ | ⟨e0, _ | ⟨e1, _ | ⟨e2, _ | ⟨e3, _ | ⟨e4, tl⟩⟩⟩⟩⟩ <;>
    simp only [List.length] at hlen <;> try omega
  cases h0 : e0.isValid <;> cases h1 : e1.isValid <;>
    cases h2 : e2.isValid <;> cases h3 : e3.isValid <;>
    simp_all [Binder.invalidMask, List.enum, List.enumFrom, List.findIdx,
      List.findIdx.go, trailingZeros8, trailingZerosAux]

/-- C5: invalid_mask has bit i set exactly for the slots whose expected
layout has no matching provided group; a draw readiness check on a pass
with a non-zero mask fails with IncompatibleBindGroup at the lowest invalid
slot; in particular a group with layout lA provided at slot 0 while the
pipeline expects lB there sets bit 0 and makes the check fail with
IncompatibleBindGroup at index 0. -/
theorem invalid_mask_lowest_slot :
    ∀ (p : PassState),
    p.binder.entries.length = 4 →
    ((∀ i, i < 4 →
        ((p.binder.invalidMask).testBit i =
          ! (p.binder.entries.getD i default).isValid)) ∧
     (p.binder.invalidMask ≠ 0 →
        p.isReady = Except.error (DrawError.incompatibleBindGroup
          (p.binder.entries.findIdx fun e => ! e.isValid))) ∧
     (∀ lA lB g offs rest,
        p.binder.entries =
          { expectedLayoutId := some lB,
            provided := some { layoutId := lA, groupId := g },
            dynamicOffsets := offs } :: rest →
        lA ≠ lB →
        ((p.binder.invalidMask).testBit 0 = true ∧
         p.isReady = Except.error (DrawError.incompatibleBindGroup 0)))) := by
  intro p hlen
  have htb := invalidMask_testBit p.binder hlen
  have hready : p.binder.invalidMask ≠ 0 →
      p.isReady = Except.error (DrawError.incompatibleBindGroup
        (p.binder.entries.findIdx fun e => ! e.isValid)) := by
    intro hne
    obtain ⟨b, blend, stencil⟩ := p
    simp only [PassState.isReady]
    rw [if_pos hne, trailingZeros8_invalidMask b hlen hne]
  refine ⟨htb, hready, ?_⟩
  intro lA lB g offs rest hcons hne
  have hv0 : (p.binder.entries.getD 0 default).isValid = false := by
    rw [hcons]
    simp [BindGroupEntry.isValid, Ne.symm hne]
  have hbit : (p.binder.invalidMask).testBit 0 = true := by
    rw [htb 0 (by omega), hv0]
    rfl
  have hmaskne : p.binder.invalidMask ≠ 0 := by
    intro h0
    rw [h0] at hbit
    simp [Nat.zero_testBit] at hbit
  have hfind : (p.binder.entries.findIdx fun e => ! e.isValid) = 0 := by
    rw [hcons, List.findIdx_cons]
    have hv : (! BindGroupEntry.isValid
        { expectedLayoutId := some lB,
          provided := some { layoutId := lA, groupId := g },
          dynamicOffsets := offs }) = true := by
      simp [BindGroupEntry.isValid, Ne.symm hne]
    rw [hv]
    rfl
  exact ⟨hbit, by rw [hready hmaskne, hfind]⟩

/-- C5 witness: the concrete pass with a layout mismatch at slot 0. -/
theorem invalid_mask_lowest_slot_witness :
    ((∀ i, i < 4 →
        ((passMismatch.binder.invalidMask).testBit i =
          ! (passMismatch.binder.entries.getD i default).isValid)) ∧
     (passMismatch.binder.invalidMask ≠ 0 →
        passMismatch.isReady = Except.error (DrawError.incompatibleBindGroup
          (passMismatch.binder.entries.findIdx fun e => ! e.isValid))) ∧
     (∀ lA lB g offs rest,
        passMismatch.binder.entries =
          { expectedLayoutId := some lB,
            provided := some { layoutId := lA, groupId := g },
            dynamicOffsets := offs } :: rest →
        lA ≠ lB →
        ((passMismatch.binder.invalidMask).testBit 0 = true ∧
         passMismatch.isReady =
           Except.error (DrawError.incompatibleBindGroup 0)))) :=
  invalid_mask_lowest_slot passMismatch rfl

/-- C7 counterexample: a sampler whose compare function is Never is created
with the comparison mode enabled (the code only special-cases Always), even
though Never is one of the two functions CompareFunction::is_trivial singles
out. -/
theorem sampler_never_keeps_comparison :
    samplerComparison CompareFunction.never = some HalComparison.never ∧
    CompareFunction.isTrivial CompareFunction.never = true ∧
    samplerComparison CompareFunction.never ≠ none := by
  refine ⟨rfl, rfl, ?_⟩
  simp [samplerComparison]

/-- C7 (amended): device_create_sampler disables the comparison sampler mode
exactly when the descriptor's compare function is Always; every other
compare function, Never included, yields a comparison sampler with the
corresponding mapped function. -/
theorem sampler_comparison_iff_always :
    (∀ cf, samplerComparison cf = none ↔ cf = CompareFunction.always) ∧
    (∀ cf, cf ≠ CompareFunction.always →
      samplerComparison cf = some (mapCompareFunction cf)) := by
  constructor
  · intro cf
    cases cf <;> simp [samplerComparison]
  · intro cf h
    simp [samplerComparison, h]

/-- C7 witness: Never is not Always, and its sampler keeps the mapped
comparison. -/
theorem sampler_comparison_iff_always_witness :
    samplerComparison CompareFunction.never =
      some (mapCompareFunction CompareFunction.never) :=
  sampler_comparison_iff_always.2 CompareFunction.never (by decide)

/-- C8 counterexample: in a build without debug assertions, set_bind_group
accepts a dynamic offset of 128 even though 128 is not a multiple of
BIND_BUFFER_ALIGNMENT, on both the render and the compute path. -/
theorem set_bind_group_misaligned_accepted :
    renderPassSetBindGroupValid false 1 [128] = true ∧
    computePassSetBindGroupValid false 1 [128] = true ∧
    ¬ (128 % BIND_BUFFER_ALIGNMENT = 0) := by
  decide

/-- C8 (amended): render_pass_set_bind_group and compute_pass_set_bind_group
perform the same validation; it passes exactly when offsets.length equals
the bind group's dynamic_count and, only in builds with debug assertions,
every offset is a multiple of BIND_BUFFER_ALIGNMENT (256). A violated
enforced condition fails the call synchronously (assert panic). -/
theorem set_bind_group_validation :
    (∀ debugAssertions dynamicCount offsets,
      renderPassSetBindGroupValid debugAssertions dynamicCount offsets =
        computePassSetBindGroupValid debugAssertions dynamicCount offsets) ∧
    (∀ debugAssertions dynamicCount offsets,
      renderPassSetBindGroupValid debugAssertions dynamicCount offsets = true ↔
        (dynamicCount = offsets.length ∧
          (debugAssertions = true →
            ∀ off ∈ offsets, off % BIND_BUFFER_ALIGNMENT = 0))) := by
  refine ⟨fun _ _ _ => rfl, fun debugAssertions dynamicCount offsets => ?_⟩
  cases debugAssertions <;>
    simp [renderPassSetBindGroupValid, List.all_eq_true]

/-- C8 witness: with debug assertions on, a misaligned offset is refused. -/
theorem set_bind_group_validation_witness :
    (renderPassSetBindGroupValid true 1 [128] = true ↔
      ((1 : Nat) = [128].length ∧
        (true = true → ∀ off ∈ [128], off % BIND_BUFFER_ALIGNMENT = 0))) :=
  set_bind_group_validation.2 true 1 [128]

/-- Closed form of the submission counter: after k submissions it holds
k + 1. -/
theorem counterAfterSubmits_eq (k : Nat) : counterAfterSubmits k = k + 1 := by
  induction k with
  | zero => rfl
  | succ k ih =>
    simp [counterAfterSubmits, queueSubmitAcquire, ih]

/-- C9: the per-device submission counter starts at 1 and 0 is the
never-used value of a fresh life guard; every queue_submit assigns a
strictly positive index strictly larger than all previously assigned ones,
and the store queue_submit performs on a used resource's last-submission
index strictly increases it (its old value being 0 or an earlier
submission's index). -/
theorem submission_index_monotone :
    deviceNewSubmissionCounter = 1 ∧
    lifeGuardNewSubmissionIndex = 0 ∧
    (∀ k, 0 < submitIndexAt k) ∧
    (∀ j k, j < k → submitIndexAt j < submitIndexAt k) ∧
    (∀ k old, (old = 0 ∨ ∃ j, j < k ∧ old = submitIndexAt j) →
      old < storeLastSubmission old (submitIndexAt k)) := by
  have hidx : ∀ k, submitIndexAt k = k + 2 := by
    intro k
    simp [submitIndexAt, queueSubmitAcquire, counterAfterSubmits_eq]
    omega
  refine ⟨rfl, rfl, ?_, ?_, ?_⟩
  · intro k; rw [hidx]; omega
  · intro j k h; rw [hidx, hidx]; omega
  · intro k old h
    rcases h with h | ⟨j, hj, h⟩
    · rw [h, storeLastSubmission, hidx]; omega
    · rw [h, storeLastSubmission, hidx, hidx]; omega

end Wgpu
